import Mathlib

/-!
# The memory-pool allocator of `mem_pool.c`

A shallow embedding of the allocator in `src/mem_pool.c` and a verification of
its specification.

Modelling conventions.

* A node pointer (`node_pt`, `alloc_pt`) is a natural number: the distance, in
  slots, of the address from the start of the block that `pool_mgr->node_heap`
  points to at the moment.  The pointer `p` is the address of the slab slot
  `node_heap[p]` exactly when `p < total_nodes`; any other value is an address
  outside the slab.  A nullable pointer is an `Option Nat` and `NULL` is
  `none`.
* The C code never relinks anything when `realloc` moves the slab.  A pointer
  keeps its address, so its distance from the start of the *new* block differs
  from its distance from the start of the old one: the model adds that
  difference to every node pointer that is stored anywhere (the `next` and
  `prev` fields of the copied slots, the `node` fields of the gap index, the
  handles held by the caller).  After a move none of them is below
  `total_nodes`, that is, none of them points into the slab.
* What `realloc`, `malloc` and `calloc` answer is not decided by the program.
  Every function that calls them takes the answer as an argument: whether the
  call returns `NULL`, whether `realloc` moves the block, and what the bytes
  hold that the call does not initialise (the new slots after a `realloc`, the
  fields of the manager that `mem_pool_open` never assigns).
* `unsigned` is 32 bits and `size_t` is 64 bits wide.  The counters
  `num_allocs` and `used_nodes` are computed modulo `2^32`; `alloc_size`, the
  length of a remainder and the length of a merged region are computed modulo
  `2^64`.  The gap count and the capacities are taken to stay below `2^32`,
  a `size` argument is a `size_t` value, and addresses are natural numbers.
* The fill-factor tests `(float) a / b > 0.75` are the exact comparison
  `3 * b < 4 * a`.
* A read through a pointer that is not the address of a slot (undefined
  behaviour in C) yields the blank entry and a write through it does nothing.
  The same holds for an index beyond a list.
-/

namespace MemPool

/-! ## Types declared in `mem_pool.h` -/

/-- Modelled from the spec: the header `mem_pool.h` is not part of the sources;
the status codes are the four that `mem_pool.c` returns. -/
inductive alloc_status where
  | ALLOC_OK
  | ALLOC_FAIL
  | ALLOC_CALLED_AGAIN
  | ALLOC_NOT_FREED
  deriving DecidableEq, Repr

/-- Modelled from the spec: the header `mem_pool.h` is not part of the sources;
the placement policies are the two that `mem_new_alloc` tests for. -/
inductive alloc_policy where
  | FIRST_FIT
  | BEST_FIT
  deriving DecidableEq, Repr

/-- Modelled from the spec: the header `mem_pool.h` is not part of the sources;
an allocation record is the start address and the length of a region. -/
structure alloc_t where
  size : Nat
  mem : Nat
  deriving DecidableEq, Repr

/-- Modelled from the spec: the header `mem_pool.h` is not part of the sources;
the pool record holds the arena address, the policy and the summary
counters that `mem_pool.c` reads and writes. -/
structure pool_t where
  mem : Nat
  policy : alloc_policy
  total_size : Nat
  alloc_size : Nat
  num_allocs : Nat
  num_gaps : Nat
  deriving DecidableEq, Repr

/-- Modelled from the spec: the header `mem_pool.h` is not part of the sources;
a segment of the snapshot is a length and the `allocated` flag (1 for an
allocation, 0 for a gap). -/
structure pool_segment_t where
  size : Nat
  allocated : Nat
  deriving DecidableEq, Repr

/-! ## Types and constants of `mem_pool.c` -/

def MEM_EXPAND_FACTOR : Nat := 2

def MEM_POOL_STORE_INIT_CAPACITY : Nat := 20

def MEM_NODE_HEAP_INIT_CAPACITY : Nat := 40

def MEM_NODE_HEAP_EXPAND_FACTOR : Nat := 2

def MEM_GAP_IX_INIT_CAPACITY : Nat := 40

def MEM_GAP_IX_EXPAND_FACTOR : Nat := 2

/-- The number of values of an `unsigned`, the type of `pool.num_allocs`. -/
def UNSIGNED_RANGE : Nat := 4294967296

/-- The number of values of a `size_t`, the type of `pool.alloc_size`. -/
def SIZE_RANGE : Nat := 18446744073709551616

/-- The region descriptor `node_t`; `next` and `prev` are node pointers. -/
structure node_t where
  alloc_record : alloc_t
  used : Nat
  allocated : Nat
  next : Option Nat
  prev : Option Nat
  deriving DecidableEq, Repr

/-- The gap-index entry `gap_t`; `node` is a node pointer. -/
structure gap_t where
  size : Nat
  node : Option Nat
  deriving DecidableEq, Repr

/-- The pool manager `pool_mgr_t`; `node_heap` and `gap_ix` are the contents of
the two blocks, and an empty list stands for the `NULL` that a failed
`realloc` leaves in the field. -/
structure pool_mgr_t where
  pool : pool_t
  node_heap : List node_t
  total_nodes : Nat
  used_nodes : Nat
  gap_ix : List gap_t
  gap_ix_capacity : Nat
  deriving DecidableEq, Repr

/-- The three static globals `pool_store`, `pool_store_size` and
`pool_store_capacity`; a slot of the store holds the address of a manager. -/
structure registry_t where
  pool_store : Option (List (Option Nat))
  pool_store_size : Nat
  pool_store_capacity : Nat
  deriving DecidableEq, Repr

/-- What `realloc` answers when it grows the node slab and does not return
`NULL`.  `moved = none`: the block was extended where it is.  `moved = some d`:
the block was moved, and the old block lies `d` slots beyond the end of the
new one.  `fill i` is what the new slot `i` holds: `realloc` does not
initialise it. -/
structure slab_block where
  moved : Option Nat
  fill : Nat → node_t

/-- What the C allocator hands to one call of `mem_pool_open`: what the
`realloc` of the pool store leaves in its new slots (`none` when it returns
`NULL`), whether each of the four allocations of the call returns `NULL`, the
address of the manager block, the address of the arena, and the prior content
of the two manager fields that `mem_pool_open` never assigns. -/
structure heap_block where
  pool_store : Option (Nat → Option Nat)
  mgr_null : Bool
  arena_null : Bool
  node_heap_null : Bool
  gap_ix_null : Bool
  mgr : Nat
  arena : Nat
  num_allocs : Nat
  alloc_size : Nat

/-- A slab slot as `calloc` leaves it. -/
def blank_node : node_t :=
  { alloc_record := { size := 0, mem := 0 }, used := 0, allocated := 0, next := none, prev := none }

/-- A gap-index entry as `calloc` leaves it (and as a removal clears it). -/
def blank_gap : gap_t := { size := 0, node := none }

/-- The slot `node_heap[i]`, and the node that the pointer `i` points to. -/
def node_at (H : List node_t) (i : Nat) : node_t := H.getD i blank_node

/-- The entry `gap_ix[i]`. -/
def gap_at (G : List gap_t) (i : Nat) : gap_t := G.getD i blank_gap

/-- A write through a node pointer: `node_heap[i]` becomes `f node_heap[i]`. -/
def set_node (m : pool_mgr_t) (i : Nat) (f : node_t → node_t) : pool_mgr_t :=
  { m with node_heap := m.node_heap.set i (f (node_at m.node_heap i)) }

/-- The loop `for (i = start; i < start + count; i++) if (p i) { found = i; break; }`. -/
def find_from (p : Nat → Bool) : Nat → Nat → Option Nat
  | 0, _ => none
  | count + 1, i => if p i then some i else find_from p count (i + 1)

/-- The slots `start, ..., start + count - 1` of a block that `realloc` has
grown, with the content `fill` that the allocator left there; `start` is the
number of slots the block had (none after a failed `realloc`). -/
def fresh_slots {α : Type} (fill : Nat → α) (start count : Nat) : List α :=
  (List.range count).map (fun j => fill (start + j))

/-- A node pointer as it reads after the slab was moved: its distance from the
start of the block has grown by `s`. -/
def moved_ptr (s : Nat) (p : Option Nat) : Option Nat := p.map (fun i => i + s)

/-- A slab slot copied by `realloc` into a block that starts `s` slots before
the old one: the bytes are the same, so the two links point where they did. -/
def moved_node (s : Nat) (n : node_t) : node_t :=
  { n with next := moved_ptr s n.next, prev := moved_ptr s n.prev }

/-- A gap-index entry after the slab was moved by `s` slots. -/
def moved_gap (s : Nat) (e : gap_t) : gap_t := { e with node := moved_ptr s e.node }

/-! ## Static functions -/

/-- The registry growth check `_mem_resize_pool_store`; `r` is the answer of
`realloc`. -/
def _mem_resize_pool_store (g : registry_t) (r : Option (Nat → Option Nat)) :
    registry_t × alloc_status :=
  if 3 * g.pool_store_capacity < 4 * g.pool_store_size then
    let updated_capacity := g.pool_store_capacity * MEM_EXPAND_FACTOR
    match r with
    | none => ({ g with pool_store := none }, alloc_status.ALLOC_FAIL)
    | some fill =>
      ({ g with
          pool_store := g.pool_store.map (fun s =>
            s ++ fresh_slots fill s.length (updated_capacity - s.length))
          pool_store_capacity := updated_capacity },
        alloc_status.ALLOC_OK)
  else (g, alloc_status.ALLOC_OK)

/-- The slab growth check `_mem_resize_node_heap`; `r` is the answer of
`realloc`.  When the block is moved the function, like the C code, relinks
nothing: every stored node pointer keeps its address and so reads
`updated_capacity + d` slots further from the start of the new block. -/
def _mem_resize_node_heap (m : pool_mgr_t) (r : Option slab_block) :
    pool_mgr_t × alloc_status :=
  if 3 * m.total_nodes < 4 * m.used_nodes then
    let updated_capacity := m.total_nodes * MEM_NODE_HEAP_EXPAND_FACTOR
    match r with
    | none => ({ m with node_heap := [] }, alloc_status.ALLOC_FAIL)
    | some a =>
      match a.moved with
      | none =>
        ({ m with
            node_heap := m.node_heap ++
              fresh_slots a.fill m.node_heap.length (updated_capacity - m.node_heap.length)
            total_nodes := updated_capacity },
          alloc_status.ALLOC_OK)
      | some d =>
        ({ m with
            node_heap := m.node_heap.map (moved_node (updated_capacity + d)) ++
              fresh_slots a.fill m.node_heap.length (updated_capacity - m.node_heap.length)
            gap_ix := m.gap_ix.map (moved_gap (updated_capacity + d))
            total_nodes := updated_capacity },
          alloc_status.ALLOC_OK)
  else (m, alloc_status.ALLOC_OK)

/-- The gap-index growth check `_mem_resize_gap_ix`; `r` is the answer of
`realloc`: `none` for `NULL`, otherwise the content of the new entries. -/
def _mem_resize_gap_ix (m : pool_mgr_t) (r : Option (Nat → gap_t)) :
    pool_mgr_t × alloc_status :=
  if 3 * m.gap_ix_capacity < 4 * m.pool.num_gaps then
    let updated_capacity := m.gap_ix_capacity * MEM_GAP_IX_EXPAND_FACTOR
    match r with
    | none => ({ m with gap_ix := [] }, alloc_status.ALLOC_FAIL)
    | some fill =>
      ({ m with
          gap_ix := m.gap_ix ++
            fresh_slots fill m.gap_ix.length (updated_capacity - m.gap_ix.length)
          gap_ix_capacity := updated_capacity },
        alloc_status.ALLOC_OK)
  else (m, alloc_status.ALLOC_OK)

/-- The address `p->alloc_record.mem` of the region a gap entry points to. -/
def node_mem (H : List node_t) (p : Option Nat) : Nat :=
  match p with
  | some i => (node_at H i).alloc_record.mem
  | none => 0

/-- The swap test of `_mem_sort_gap_ix`: entry `a` (the later one) has a smaller
size than `b`, or the same size and a lower region address. -/
def gap_before (H : List node_t) (a b : gap_t) : Bool :=
  decide (a.size < b.size) ||
    (decide (a.size = b.size) && decide (node_mem H a.node < node_mem H b.node))

/-- The loop of `_mem_sort_gap_ix`, `for (i = n; i > 0; i--)`, swapping entries
`i` and `i - 1` when the test holds. -/
def sort_loop (H : List node_t) : Nat → List gap_t → List gap_t
  | 0, G => G
  | i + 1, G =>
    sort_loop H i
      (if gap_before H (gap_at G (i + 1)) (gap_at G i) then
        (G.set (i + 1) (gap_at G i)).set i (gap_at G (i + 1))
      else G)

/-- The single backward pass `_mem_sort_gap_ix`. -/
def _mem_sort_gap_ix (m : pool_mgr_t) : pool_mgr_t :=
  if m.pool.num_gaps < 2 then m
  else { m with gap_ix := sort_loop m.node_heap (m.pool.num_gaps - 1) m.gap_ix }

/-- The insertion `_mem_add_to_gap_ix`: grow if needed (the status of the
growth check is not looked at), append, count, sort.  `r` is the answer of the
`realloc` in the growth check. -/
def _mem_add_to_gap_ix (m : pool_mgr_t) (size : Nat) (node : Nat) (r : Option (Nat → gap_t)) :
    pool_mgr_t :=
  let m := (_mem_resize_gap_ix m r).1
  let m := { m with gap_ix := m.gap_ix.set m.pool.num_gaps { size := size, node := some node } }
  let m := { m with pool := { m.pool with num_gaps := m.pool.num_gaps + 1 } }
  _mem_sort_gap_ix m

/-- The copy loop of `_mem_remove_from_gap_ix`:
`for (i = pos; i < pos + count; i++) gap_ix[i] = gap_ix[i + 1]`. -/
def shift_loop : Nat → Nat → List gap_t → List gap_t
  | 0, _, G => G
  | count + 1, i, G => shift_loop count (i + 1) (G.set i (gap_at G (i + 1)))

/-- The removal `_mem_remove_from_gap_ix`; the `size` argument is unused by the
C code as well. -/
def _mem_remove_from_gap_ix (m : pool_mgr_t) (_size : Nat) (node : Nat) :
    pool_mgr_t × alloc_status :=
  match find_from (fun i => (gap_at m.gap_ix i).node == some node) m.pool.num_gaps 0 with
  | none => (m, alloc_status.ALLOC_FAIL)
  | some pos =>
    let G := shift_loop (m.pool.num_gaps - pos) pos m.gap_ix
    let num_gaps := m.pool.num_gaps - 1
    ({ m with gap_ix := G.set num_gaps blank_gap, pool := { m.pool with num_gaps := num_gaps } },
      alloc_status.ALLOC_OK)

/-! ## User-facing functions -/

/-- The registry before `mem_init` and after `mem_free`. -/
def registry_init : registry_t :=
  { pool_store := none, pool_store_size := 0, pool_store_capacity := 0 }

/-- The function `mem_init`; `calloc_null` says whether its `calloc` returns
`NULL`. -/
def mem_init (g : registry_t) (calloc_null : Bool) : registry_t × alloc_status :=
  match g.pool_store with
  | none =>
    if calloc_null then
      ({ g with pool_store_capacity := MEM_POOL_STORE_INIT_CAPACITY }, alloc_status.ALLOC_FAIL)
    else
      ({ g with
          pool_store := some (List.replicate MEM_POOL_STORE_INIT_CAPACITY none)
          pool_store_capacity := MEM_POOL_STORE_INIT_CAPACITY },
        alloc_status.ALLOC_OK)
  | some _ => (g, alloc_status.ALLOC_CALLED_AGAIN)

/-- The function `mem_free`. -/
def mem_free (g : registry_t) : registry_t × alloc_status :=
  match g.pool_store with
  | none => (g, alloc_status.ALLOC_CALLED_AGAIN)
  | some _ =>
    ({ pool_store := none, pool_store_size := 0, pool_store_capacity := 0 },
      alloc_status.ALLOC_OK)

/-- The function `mem_pool_open`; the result is the registry after the call and
the new manager (`none` for the `NULL` return).  The pool handle is `b.mgr`.
The growth check of the one `_mem_add_to_gap_ix` call sees no gap and so calls
no `realloc`. -/
def mem_pool_open (g : registry_t) (b : heap_block) (size : Nat) (policy : alloc_policy) :
    registry_t × Option pool_mgr_t :=
  match g.pool_store with
  | none => (g, none)
  | some _ =>
    let g := (_mem_resize_pool_store g b.pool_store).1
    if b.mgr_null then (g, none)
    else if b.arena_null then (g, none)
    else if b.node_heap_null then (g, none)
    else if b.gap_ix_null then (g, none)
    else
      let m : pool_mgr_t :=
        { pool :=
            { mem := b.arena, policy := policy, total_size := size,
              alloc_size := b.alloc_size, num_allocs := b.num_allocs, num_gaps := 0 }
          node_heap := List.replicate MEM_NODE_HEAP_INIT_CAPACITY blank_node
          total_nodes := MEM_NODE_HEAP_INIT_CAPACITY
          used_nodes := 0
          gap_ix := List.replicate MEM_GAP_IX_INIT_CAPACITY blank_gap
          gap_ix_capacity := MEM_GAP_IX_INIT_CAPACITY }
      let m := set_node m 0 (fun n =>
        { n with alloc_record := { mem := m.pool.mem, size := size }, used := 1 })
      let m := { m with used_nodes := 1 }
      let m := _mem_add_to_gap_ix m size 0 none
      let g := { g with
        pool_store := g.pool_store.map (fun s => s.set g.pool_store_size (some b.mgr))
        pool_store_size := g.pool_store_size + 1 }
      (g, some m)

/-- The loop of `mem_pool_close` over the pool store,
`for (i = start; i < start + count; i++) if (pool_store[i] == pool_mgr) pool_store[i] = NULL`. -/
def clear_slots (p : Nat) : Nat → Nat → List (Option Nat) → List (Option Nat)
  | 0, _, s => s
  | count + 1, i, s =>
    clear_slots p count (i + 1) (if s.getD i none = some p then s.set i none else s)

/-- The function `mem_pool_close`, called with a pool handle: `none` for `NULL`,
otherwise the address `p` of the manager together with the manager `m` stored
there.  The result is the status, the registry after the call, and the manager
after the call (`none` once it has been released). -/
def mem_pool_close (g : registry_t) (pool : Option (Nat × pool_mgr_t)) :
    alloc_status × registry_t × Option pool_mgr_t :=
  match pool with
  | none => (alloc_status.ALLOC_NOT_FREED, g, none)
  | some (p, m) =>
    if m.pool.num_gaps ≠ 1 then (alloc_status.ALLOC_NOT_FREED, g, some m)
    else if m.pool.num_allocs ≠ 0 then (alloc_status.ALLOC_NOT_FREED, g, some m)
    else
      (alloc_status.ALLOC_OK,
        { g with pool_store := g.pool_store.map (clear_slots p g.pool_store_size 0) },
        none)

/-- The first-fit scan of `mem_new_alloc`: the first slab slot, in slot order,
that is used, not allocated and at least `size` long. -/
def first_fit_scan (m : pool_mgr_t) (size : Nat) : Option Nat :=
  find_from (fun i =>
    decide ((node_at m.node_heap i).used = 1) &&
    decide ((node_at m.node_heap i).allocated = 0) &&
    decide (size ≤ (node_at m.node_heap i).alloc_record.size)) m.total_nodes 0

/-- The best-fit scan of `mem_new_alloc`,
`for (i = start; i < start + count && node == NULL; i++)`: the node of the
first gap-index entry whose size is at least `size`. -/
def best_fit_scan (G : List gap_t) (size : Nat) : Nat → Nat → Option Nat
  | 0, _ => none
  | count + 1, i =>
    if size ≤ (gap_at G i).size then
      match (gap_at G i).node with
      | some n => some n
      | none => best_fit_scan G size count (i + 1)
    else best_fit_scan G size count (i + 1)

/-- The choice of the node for an allocation, by policy. -/
def select_node (m : pool_mgr_t) (size : Nat) : Option Nat :=
  match m.pool.policy with
  | alloc_policy.FIRST_FIT => first_fit_scan m size
  | alloc_policy.BEST_FIT => best_fit_scan m.gap_ix size m.gap_ix_capacity 0

/-- The search of `mem_new_alloc` for a slab slot with `used == 0`. -/
def find_unused (m : pool_mgr_t) : Option Nat :=
  find_from (fun i => decide ((node_at m.node_heap i).used = 0)) m.total_nodes 0

/-- The part of `mem_new_alloc` that turns the slot `unused_node` into the gap
after `node` and links it into the list. -/
def link_remainder (m : pool_mgr_t) (node unused_node size remaining_gap_size : Nat) :
    pool_mgr_t :=
  let m := set_node m unused_node (fun u =>
    { u with
      allocated := 0, used := 1,
      alloc_record :=
        { size := remaining_gap_size, mem := (node_at m.node_heap node).alloc_record.mem + size } })
  let m := { m with used_nodes := (m.used_nodes + 1) % UNSIGNED_RANGE }
  let m := set_node m unused_node (fun u => { u with next := (node_at m.node_heap node).next })
  let m :=
    match (node_at m.node_heap node).next with
    | some nx => set_node m nx (fun x => { x with prev := some unused_node })
    | none => set_node m unused_node (fun u => { u with next := none })
  let m := set_node m node (fun n => { n with next := some unused_node })
  set_node m unused_node (fun u => { u with prev := some node })

/-- The part of `mem_new_alloc` after a node has been found; `rg` is the answer
of the `realloc` of the gap index. -/
def alloc_in_node (m : pool_mgr_t) (node size : Nat) (rg : Option (Nat → gap_t)) :
    pool_mgr_t × Option Nat :=
  let m := { m with pool := { m.pool with
    num_allocs := (m.pool.num_allocs + 1) % UNSIGNED_RANGE,
    alloc_size := (m.pool.alloc_size + size) % SIZE_RANGE } }
  let remaining_gap_size :=
    ((node_at m.node_heap node).alloc_record.size + (SIZE_RANGE - size % SIZE_RANGE)) % SIZE_RANGE
  match _mem_remove_from_gap_ix m size node with
  | (m, alloc_status.ALLOC_OK) =>
    let m := set_node m node (fun n =>
      { n with allocated := 1, alloc_record := { n.alloc_record with size := size } })
    if remaining_gap_size ≠ 0 then
      match find_unused m with
      | none => (m, none)
      | some unused_node =>
        let m := link_remainder m node unused_node size remaining_gap_size
        (_mem_add_to_gap_ix m remaining_gap_size unused_node rg, some node)
    else (m, some node)
  | (m, _) => (m, none)

/-- The function `mem_new_alloc`; `rs` and `rg` are the answers of the
`realloc` of the slab and of the gap index; the result is the manager after
the call and the handle (`none` for the `NULL` return). -/
def mem_new_alloc (m : pool_mgr_t) (size : Nat) (rs : Option slab_block)
    (rg : Option (Nat → gap_t)) : pool_mgr_t × Option Nat :=
  if m.pool.num_gaps = 0 then (m, none)
  else
    match _mem_resize_node_heap m rs with
    | (m, alloc_status.ALLOC_OK) =>
      if m.total_nodes < m.used_nodes then (m, none)
      else
        match select_node m size with
        | none => (m, none)
        | some node => alloc_in_node m node size rg
    | (m, _) => (m, none)

/-- The part of the merge-right step of `mem_del_alloc` after the gap `nx` has
been taken out of the gap index: `node` absorbs `nx`, whose slot is released
and unlinked. -/
def absorb_next (m : pool_mgr_t) (node nx : Nat) : pool_mgr_t :=
  let m := set_node m node (fun n => { n with alloc_record := { n.alloc_record with
    size := (n.alloc_record.size + (node_at m.node_heap nx).alloc_record.size) % SIZE_RANGE } })
  let m := set_node m nx (fun x => { x with used := 0 })
  let m := { m with used_nodes := (m.used_nodes + (UNSIGNED_RANGE - 1)) % UNSIGNED_RANGE }
  let m :=
    match (node_at m.node_heap nx).next with
    | some nn =>
      let m := set_node m nn (fun x => { x with prev := some node })
      set_node m node (fun n => { n with next := some nn })
    | none => set_node m node (fun n => { n with next := none })
  set_node m nx (fun x => { x with next := none, prev := none })

/-- The merge-right step of `mem_del_alloc`, entered when `node->next` is the
gap `nx`. -/
def merge_next (m : pool_mgr_t) (node nx : Nat) : pool_mgr_t × alloc_status :=
  match _mem_remove_from_gap_ix m (node_at m.node_heap nx).alloc_record.size nx with
  | (m, alloc_status.ALLOC_OK) => (absorb_next m node nx, alloc_status.ALLOC_OK)
  | (m, _) => (m, alloc_status.ALLOC_FAIL)

/-- The part of the merge-left step of `mem_del_alloc` after the gap `pv` has
been taken out of the gap index: `pv` absorbs `node`, whose slot is released
and unlinked. -/
def absorb_into_prev (m : pool_mgr_t) (node pv : Nat) : pool_mgr_t :=
  let m := set_node m pv (fun p => { p with alloc_record := { p.alloc_record with
    size := (p.alloc_record.size + (node_at m.node_heap node).alloc_record.size) % SIZE_RANGE } })
  let m := set_node m node (fun n => { n with used := 0 })
  let m := { m with used_nodes := (m.used_nodes + (UNSIGNED_RANGE - 1)) % UNSIGNED_RANGE }
  let m :=
    match (node_at m.node_heap node).next with
    | some nx =>
      let m := set_node m pv (fun p => { p with next := some nx })
      set_node m nx (fun x => { x with prev := some pv })
    | none => set_node m pv (fun p => { p with next := none })
  set_node m node (fun n => { n with next := none, prev := none })

/-- The merge-left step of `mem_del_alloc`, entered when `node->prev` is the
gap `pv`. -/
def merge_prev (m : pool_mgr_t) (node pv : Nat) : pool_mgr_t × alloc_status :=
  match _mem_remove_from_gap_ix m (node_at m.node_heap pv).alloc_record.size pv with
  | (m, alloc_status.ALLOC_OK) => (absorb_into_prev m node pv, alloc_status.ALLOC_OK)
  | (m, _) => (m, alloc_status.ALLOC_FAIL)

/-- The test and the merge-right step of `mem_del_alloc`:
`if (node->next != NULL && node->next->allocated == 0) ...`. -/
def try_merge_next (m : pool_mgr_t) (node : Nat) : pool_mgr_t × alloc_status :=
  match (node_at m.node_heap node).next with
  | some nx =>
    if (node_at m.node_heap nx).allocated = 0 then merge_next m node nx
    else (m, alloc_status.ALLOC_OK)
  | none => (m, alloc_status.ALLOC_OK)

/-- The test and the merge-left step of `mem_del_alloc`:
`if (node->prev != NULL && node->prev->allocated == 0) ...`; the second
component is the node that goes into the gap index afterwards. -/
def try_merge_prev (m : pool_mgr_t) (node : Nat) : pool_mgr_t × Nat × alloc_status :=
  match (node_at m.node_heap node).prev with
  | some pv =>
    if (node_at m.node_heap pv).allocated = 0 then
      match merge_prev m node pv with
      | (m, alloc_status.ALLOC_OK) => (m, pv, alloc_status.ALLOC_OK)
      | (m, _) => (m, node, alloc_status.ALLOC_FAIL)
    else (m, node, alloc_status.ALLOC_OK)
  | none => (m, node, alloc_status.ALLOC_OK)

/-- The first statements of `mem_del_alloc` after the node has been found: the
node is marked free and the summary counters are lowered, modulo the range of
their types (`alloc` and `node` are the same pointer). -/
def mark_released (m : pool_mgr_t) (node alloc : Nat) : pool_mgr_t :=
  let m := set_node m node (fun n => { n with allocated := 0 })
  { m with pool := { m.pool with
    num_allocs := (m.pool.num_allocs + (UNSIGNED_RANGE - 1)) % UNSIGNED_RANGE,
    alloc_size := (m.pool.alloc_size +
      (SIZE_RANGE - (node_at m.node_heap alloc).alloc_record.size % SIZE_RANGE)) % SIZE_RANGE } }

/-- The function `mem_del_alloc`; `alloc` is the handle, a node pointer, and
`rg` is the answer of the `realloc` of the gap index. -/
def mem_del_alloc (m : pool_mgr_t) (alloc : Nat) (rg : Option (Nat → gap_t)) :
    pool_mgr_t × alloc_status :=
  match find_from (fun i => decide (i = alloc)) m.total_nodes 0 with
  | none => (m, alloc_status.ALLOC_FAIL)
  | some node =>
    match try_merge_next (mark_released m node alloc) node with
    | (m, alloc_status.ALLOC_OK) =>
      match try_merge_prev m node with
      | (m, node, alloc_status.ALLOC_OK) =>
        (_mem_add_to_gap_ix m (node_at m.node_heap node).alloc_record.size node rg,
          alloc_status.ALLOC_OK)
      | (m, _, _) => (m, alloc_status.ALLOC_FAIL)
    | (m, _) => (m, alloc_status.ALLOC_FAIL)

/-- The walk of `mem_inspect_pool`: `count` segments, following `next` from
`target_node`.  A `NULL` link before the count is reached is a fault in C; the
walk ends there. -/
def inspect_loop (H : List node_t) : Nat → Option Nat → List pool_segment_t
  | 0, _ => []
  | count + 1, some t =>
    { size := (node_at H t).alloc_record.size, allocated := (node_at H t).allocated } ::
      inspect_loop H count (node_at H t).next
  | _ + 1, none => []

/-- The function `mem_inspect_pool`, when the `calloc` of the segment array
does not fail (when it fails the function returns without writing anything):
the segment array it writes; its length is `used_nodes`, the value the
function stores in `num_segments`, as long as the walk meets no `NULL` link. -/
def mem_inspect_pool (m : pool_mgr_t) : List pool_segment_t :=
  inspect_loop m.node_heap m.used_nodes (some 0)

/-! ## The gap index as a list of live entries followed by spare slots -/

/-- The backward pass of `_mem_sort_gap_ix` on the live entries, written on the
reversed list: `x` is the entry being moved and `R` the entries before it, the
nearest first; the result is again reversed. -/
def bubble (H : List node_t) : gap_t → List gap_t → List gap_t
  | x, [] => [x]
  | x, p :: R => if gap_before H x p then p :: bubble H x R else x :: bubble H p R

/-- The live entries after `_mem_add_to_gap_ix` has added `e` to the live
entries `A`. -/
def gap_insert (H : List node_t) (e : gap_t) (A : List gap_t) : List gap_t :=
  (bubble H e A.reverse).reverse

/-! ## Quantities the claims speak about -/

/-- The slab slots that hold an active region (`used == 1`). -/
def active_slots (m : pool_mgr_t) : List Nat :=
  (List.range m.total_nodes).filter (fun i => decide ((node_at m.node_heap i).used = 1))

/-- The total length of the regions in the slots `L`. -/
def sizes (H : List node_t) (L : List Nat) : Nat :=
  (L.map (fun i => (node_at H i).alloc_record.size)).sum

/-- The sum of the lengths of the active regions. -/
def active_bytes (m : pool_mgr_t) : Nat := sizes m.node_heap (active_slots m)

/-- The slab slots that hold an active unoccupied region. -/
def gap_slots (m : pool_mgr_t) : List Nat :=
  (active_slots m).filter (fun i => decide ((node_at m.node_heap i).allocated = 0))

/-- The live part of the gap index: its first `num_gaps` entries. -/
def live_gaps (m : pool_mgr_t) : List gap_t := m.gap_ix.take m.pool.num_gaps

/-- The snapshot segment of slot `i`. -/
def segment (H : List node_t) (i : Nat) : pool_segment_t :=
  { size := (node_at H i).alloc_record.size, allocated := (node_at H i).allocated }

/-- The walk of `mem_inspect_pool`, collecting the node pointers it visits. -/
def slots_loop (H : List node_t) : Nat → Option Nat → List Nat
  | 0, _ => []
  | count + 1, some t => t :: slots_loop H count (node_at H t).next
  | _ + 1, none => []

/-- The node pointers that `mem_inspect_pool` visits, in order. -/
def region_slots (m : pool_mgr_t) : List Nat :=
  slots_loop m.node_heap m.used_nodes (some 0)

/-- The number of segments of a snapshot that are allocations. -/
def occ_count (S : List pool_segment_t) : Nat :=
  (S.filter (fun s => decide (s.allocated = 1))).length

/-- The total length of the segments of a snapshot that are allocations. -/
def occ_bytes (S : List pool_segment_t) : Nat :=
  ((S.filter (fun s => decide (s.allocated = 1))).map (fun s => s.size)).sum

/-- By how many slots the handles that the caller holds read further from the
start of the slab after `mem_new_alloc m _ rs _`: zero unless the call grows
the slab and `realloc` moves it. -/
def handle_shift (m : pool_mgr_t) (rs : Option slab_block) : Nat :=
  if m.pool.num_gaps = 0 then 0
  else if 3 * m.total_nodes < 4 * m.used_nodes then
    match rs with
    | some a =>
      match a.moved with
      | some d => m.total_nodes * MEM_NODE_HEAP_EXPAND_FACTOR + d
      | none => 0
    | none => 0
  else 0

/-- The handles the caller holds after `mem_new_alloc m n rs rg`, when it held
`hs` before. -/
def handles_after_alloc (m : pool_mgr_t) (hs : List Nat) (n : Nat) (rs : Option slab_block)
    (rg : Option (Nat → gap_t)) : List Nat :=
  match (mem_new_alloc m n rs rg).2 with
  | some h => h :: hs.map (fun i => i + handle_shift m rs)
  | none => hs.map (fun i => i + handle_shift m rs)

/-- The handles the caller holds after `mem_del_alloc m h rg`, when it held
`hs` before: `h` is gone when the call succeeded. -/
def handles_after_del (m : pool_mgr_t) (hs : List Nat) (h : Nat) (rg : Option (Nat → gap_t)) :
    List Nat :=
  if (mem_del_alloc m h rg).2 = alloc_status.ALLOC_OK then hs.erase h else hs

/-- The pool states that a caller can reach: a pool opened by `mem_pool_open`
with a positive size (on the manager block `b`), then any sequence of
`mem_new_alloc` calls with a positive size and of `mem_del_alloc` calls on
handles that `mem_new_alloc` returned and that were not yet released, whatever
the C allocator answers on the way.  The list is the list of those outstanding
handles. -/
inductive Reachable (b : heap_block) (size : Nat) (policy : alloc_policy) :
    pool_mgr_t → List Nat → Prop
  | opened (g gr : registry_t) (m : pool_mgr_t) :
      0 < size → mem_pool_open g b size policy = (gr, some m) → Reachable b size policy m []
  | alloc (m : pool_mgr_t) (hs : List Nat) (n : Nat) (rs : Option slab_block)
      (rg : Option (Nat → gap_t)) :
      Reachable b size policy m hs → 0 < n →
      Reachable b size policy (mem_new_alloc m n rs rg).1 (handles_after_alloc m hs n rs rg)
  | del (m : pool_mgr_t) (hs : List Nat) (h : Nat) (rg : Option (Nat → gap_t)) :
      Reachable b size policy m hs → h ∈ hs →
      Reachable b size policy (mem_del_alloc m h rg).1 (handles_after_del m hs h rg)

/-- One call of the caller: an allocation with the answers of the two
`realloc`s, or the release of a handle with the answer of the one `realloc`. -/
inductive call where
  | new_alloc (size : Nat) (rs : Option slab_block) (rg : Option (Nat → gap_t))
  | del_alloc (h : Nat) (rg : Option (Nat → gap_t))

/-- The manager and the outstanding handles after one call. -/
def after_call (s : pool_mgr_t × List Nat) (c : call) : pool_mgr_t × List Nat :=
  match c with
  | call.new_alloc n rs rg => ((mem_new_alloc s.1 n rs rg).1, handles_after_alloc s.1 s.2 n rs rg)
  | call.del_alloc h rg => ((mem_del_alloc s.1 h rg).1, handles_after_del s.1 s.2 h rg)

/-- The manager and the outstanding handles after a sequence of calls. -/
def after_calls (s : pool_mgr_t × List Nat) (cs : List call) : pool_mgr_t × List Nat :=
  cs.foldl after_call s

/-- The calls are ones the caller may make: every allocation has a positive
size and every release names a handle that is outstanding at that moment. -/
def calls_ok (s : pool_mgr_t × List Nat) : List call → Bool
  | [] => true
  | c :: cs =>
    (match c with
      | call.new_alloc n _ _ => decide (0 < n)
      | call.del_alloc h _ => decide (h ∈ s.2)) && calls_ok (after_call s c) cs

/-- A manager block whose never-assigned fields hold zero, in a call of
`mem_pool_open` in which no allocation fails. -/
def demo_block : heap_block :=
  { pool_store := some (fun _ => none), mgr_null := false, arena_null := false,
    node_heap_null := false, gap_ix_null := false,
    mgr := 1, arena := 4096, num_allocs := 0, alloc_size := 0 }

/-- A manager block as `malloc` may hand it out: the words where `num_allocs`
and `alloc_size` live still hold what the block held before (here one
allocation of 16 bytes). -/
def stale_block : heap_block :=
  { pool_store := some (fun _ => none), mgr_null := false, arena_null := false,
    node_heap_null := false, gap_ix_null := false,
    mgr := 1, arena := 4096, num_allocs := 1, alloc_size := 16 }

/-- The registry after a `mem_init` whose `calloc` succeeds. -/
def demo_registry : registry_t := (mem_init registry_init false).1

/-- A manager with nothing in it, the default of the demo lookups. -/
def blank_mgr : pool_mgr_t :=
  { pool := { mem := 0, policy := alloc_policy.FIRST_FIT, total_size := 0, alloc_size := 0,
              num_allocs := 0, num_gaps := 0 }
    node_heap := [], total_nodes := 0, used_nodes := 0, gap_ix := [], gap_ix_capacity := 0 }

/-- The pool of scenario 1: `open(1024, policy)`. -/
def demo_pool (policy : alloc_policy) : pool_mgr_t :=
  (mem_pool_open demo_registry demo_block 1024 policy).2.getD blank_mgr

/-- Thirty allocations of 10 bytes each; no `realloc` is called. -/
def thirty_allocs : List call := List.replicate 30 (call.new_alloc 10 none none)

/-- The pool `open(1024, policy)` after thirty allocations of 10 bytes: the
regions are in the slots 0 to 30, the last one the gap of 724 bytes, and the
handles are 29, ..., 0. -/
def pool30 (policy : alloc_policy) : pool_mgr_t × List Nat :=
  after_calls (demo_pool policy, []) thirty_allocs

/-- An answer of `realloc` for the slab: the block is extended where it is,
and the `used` field of every new slot reads 1. -/
def junk_slab : slab_block :=
  { moved := none, fill := fun _ => { blank_node with used := 1 } }

/-- An answer of `realloc` for the slab: the block is moved (the old block
lies right behind the new one), and the new slots hold zeros. -/
def moved_slab : slab_block :=
  { moved := some 0, fill := fun _ => blank_node }

/-- A manager block whose `num_allocs` word holds the largest `unsigned`. -/
def wrap_block : heap_block :=
  { pool_store := some (fun _ => none), mgr_null := false, arena_null := false,
    node_heap_null := false, gap_ix_null := false,
    mgr := 1, arena := 4096, num_allocs := 4294967295, alloc_size := 0 }

/-- Scenario 2: `allocate(100)` on the pool of scenario 1. -/
def demo_alloc1 (policy : alloc_policy) : pool_mgr_t :=
  (mem_new_alloc (demo_pool policy) 100 none none).1

/-- Scenario 3: `allocate(50)` next. -/
def demo_alloc2 (policy : alloc_policy) : pool_mgr_t :=
  (mem_new_alloc (demo_alloc1 policy) 50 none none).1

/-- Scenario 4, first half: the 100-byte region is released. -/
def demo_del1 (policy : alloc_policy) : pool_mgr_t :=
  (mem_del_alloc (demo_alloc2 policy) 0 none).1

/-- The calls of scenarios 2 to 4: `allocate(100)`, `allocate(50)`, release of
both. -/
def scenario_calls : List call :=
  [call.new_alloc 100 none none, call.new_alloc 50 none none,
    call.del_alloc 0 none, call.del_alloc 1 none]

/-- The pool `open(1024, FIRST_FIT)` built in the manager block `b`. -/
def opened_pool (b : heap_block) : pool_mgr_t :=
  (mem_pool_open demo_registry b 1024 alloc_policy.FIRST_FIT).2.getD blank_mgr

/-- The pools of scenarios 1 to 4 (`open(1024)`, `allocate(100)`,
`allocate(50)`, release of both), built in the block `b`. -/
def scenario_pool (b : heap_block) : pool_mgr_t :=
  (after_calls (opened_pool b, []) scenario_calls).1

/-- The registry once the pool of the scenario has been opened in the block `b`. -/
def scenario_registry (b : heap_block) : registry_t :=
  (mem_pool_open demo_registry b 1024 alloc_policy.FIRST_FIT).1

/-- The pool `open(1024, FIRST_FIT)` built in the manager block `stale_block`. -/
def stale_pool : pool_mgr_t := opened_pool stale_block

/-- The pool `open(1024, FIRST_FIT)` built in `stale_block`, after
`allocate(100)`. -/
def stale_alloc1 : pool_mgr_t :=
  (mem_new_alloc stale_pool 100 none none).1

/-- The pool `open(1024, FIRST_FIT)` built in `wrap_block`, after
`allocate(100)`. -/
def wrap_alloc1 : pool_mgr_t :=
  (mem_new_alloc (opened_pool wrap_block) 100 none none).1

/-- The calls that lead to a stale handle: allocations of 100, 50 and 200
bytes (slots 0, 1 and 2), then the release of slot 0 and of slot 1. -/
def stale_calls : List call :=
  [call.new_alloc 100 none none, call.new_alloc 50 none none, call.new_alloc 200 none none,
    call.del_alloc 0 none, call.del_alloc 1 none]

/-- A pool with a stale handle: `open(1024)`, then `stale_calls`.  The second
release merges slot 1 into the gap in slot 0, so slot 1 is inactive and the
handle 1 is stale; the allocation in slot 2 is still outstanding. -/
def demo_stale : pool_mgr_t :=
  (after_calls (demo_pool alloc_policy.FIRST_FIT, []) stale_calls).1

/-- The calls that make slab order and address order differ: three
allocations of 100 bytes (slots 0, 1, 2), release of slot 0 and of slot 1
(slot 1 is absorbed and becomes inactive), `allocate(200)` (the gap in slot 0,
exactly), `allocate(100)` (from the gap in slot 3, whose remainder of 624
bytes at offset 400 goes into the inactive slot 1), release of slot 2 (a gap
of 100 bytes at offset 200). -/
def slab_order_calls : List call :=
  [call.new_alloc 100 none none, call.new_alloc 100 none none, call.new_alloc 100 none none,
    call.del_alloc 0 none, call.del_alloc 1 none, call.new_alloc 200 none none,
    call.new_alloc 100 none none, call.del_alloc 2 none]

/-- A first-fit pool in which slab order and address order differ:
`open(1024)`, then `slab_order_calls`. -/
def demo_slab_order : pool_mgr_t :=
  (after_calls (demo_pool alloc_policy.FIRST_FIT, []) slab_order_calls).1

/-- Thirty allocations of 10 bytes, then one more for which the slab grows and
`realloc` moves it. -/
def moved_calls : List call := thirty_allocs ++ [call.new_alloc 10 (some moved_slab) none]

/-- The first-fit pool `open(1024)` after `moved_calls`, with the handles the
caller holds. -/
def pool_moved : pool_mgr_t × List Nat :=
  after_calls (demo_pool alloc_policy.FIRST_FIT, []) moved_calls

/-- Thirty allocations of 10 bytes, one more for which the slab grows where it
is and the new slots read `used = 1`, and eight more: 39 allocations, which
use up the 40 slots the slab had at first. -/
def junk_calls : List call :=
  thirty_allocs ++ [call.new_alloc 10 (some junk_slab) none] ++
    List.replicate 8 (call.new_alloc 10 none none)

/-- The pool `open(1024, policy)` after `junk_calls`: 39 allocations of 10
bytes in the slots 0 to 38 and a gap of 634 bytes in slot 39. -/
def pool39 (policy : alloc_policy) : pool_mgr_t × List Nat :=
  after_calls (demo_pool policy, []) junk_calls

/-- The pool `open(1024, policy)` after `junk_calls` and one more
`allocate(10)`. -/
def pool40 (policy : alloc_policy) : pool_mgr_t × List Nat :=
  after_call (pool39 policy) (call.new_alloc 10 none none)

set_option maxRecDepth 1000000

/-! ## Reading and writing slots -/

theorem node_at_set_self {H : List node_t} {i : Nat} (v : node_t) (h : i < H.length) :
    node_at (H.set i v) i = v := by
  simp [node_at, List.getD_eq_getElem?_getD, List.getElem?_set, h]

theorem node_at_set_other {H : List node_t} {i j : Nat} (v : node_t) (h : i ≠ j) :
    node_at (H.set i v) j = node_at H j := by
  simp [node_at, List.getD_eq_getElem?_getD, List.getElem?_set, h]

theorem node_at_set {H : List node_t} {i : Nat} (v : node_t) (j : Nat) (h : i < H.length) :
    node_at (H.set i v) j = if j = i then v else node_at H j := by
  by_cases hj : j = i
  · subst hj; simp [node_at_set_self v h]
  · simp [hj, node_at_set_other v (Ne.symm hj)]

theorem node_at_grow (H : List node_t) (k i : Nat) :
    node_at (H ++ List.replicate k blank_node) i = node_at H i := by
  simp only [node_at, List.getD_eq_getElem?_getD, List.getElem?_append]
  by_cases h : i < H.length
  · simp [h]
  · have h2 : H.length ≤ i := Nat.le_of_not_lt h
    simp only [h, if_false, List.getElem?_eq_none h2, List.getElem?_replicate]
    split <;> rfl

theorem node_at_beyond {H : List node_t} {i : Nat} (h : H.length ≤ i) :
    node_at H i = blank_node := by
  simp [node_at, List.getD_eq_getElem?_getD, List.getElem?_eq_none h]

theorem gap_at_append_left {A B : List gap_t} {i : Nat} (h : i < A.length) :
    gap_at (A ++ B) i = gap_at A i := by
  simp [gap_at, List.getD_eq_getElem?_getD, List.getElem?_append, h]

theorem gap_at_append_right (A B : List gap_t) (i : Nat) :
    gap_at (A ++ B) (A.length + i) = gap_at B i := by
  simp [gap_at, List.getD_eq_getElem?_getD, List.getElem?_append]

theorem gap_at_length (A : List gap_t) (e : gap_t) (B : List gap_t) :
    gap_at (A ++ e :: B) A.length = e := by
  simpa [gap_at] using gap_at_append_right A (e :: B) 0

theorem gap_at_length_succ (A : List gap_t) (e : gap_t) (B : List gap_t) :
    gap_at (A ++ e :: B) (A.length + 1) = gap_at B 0 := by
  simpa [gap_at] using gap_at_append_right A (e :: B) 1

theorem set_at_length {α : Type} (A : List α) (e v : α) (B : List α) :
    (A ++ e :: B).set A.length v = A ++ v :: B := by
  simp [List.set_append]

theorem find_from_some {p : Nat → Bool} {count i j : Nat} (h : find_from p count i = some j) :
    i ≤ j ∧ j < i + count ∧ p j = true ∧ ∀ l, i ≤ l → l < j → p l = false := by
  induction count generalizing i with
  | zero => simp [find_from] at h
  | succ k ih =>
    unfold find_from at h
    by_cases hp : p i = true
    · simp only [hp, if_true, Option.some.injEq] at h
      subst h
      exact ⟨Nat.le_refl _, by omega, hp, fun l h1 h2 => by omega⟩
    · simp only [hp] at h
      obtain ⟨h1, h2, h3, h4⟩ := ih h
      refine ⟨by omega, by omega, h3, fun l hl1 hl2 => ?_⟩
      by_cases hli : l = i
      · subst hli; simpa using hp
      · exact h4 l (by omega) hl2

theorem find_from_none {p : Nat → Bool} {count i : Nat} (h : find_from p count i = none) :
    ∀ l, i ≤ l → l < i + count → p l = false := by
  induction count generalizing i with
  | zero => intro l h1 h2; omega
  | succ k ih =>
    unfold find_from at h
    by_cases hp : p i = true
    · simp [hp] at h
    · simp only [hp] at h
      intro l h1 h2
      by_cases hli : l = i
      · subst hli; simpa using hp
      · exact ih h l (by omega) (by omega)

theorem find_from_first {p : Nat → Bool} {count i j : Nat} (h1 : i ≤ j) (h2 : j < i + count)
    (hp : p j = true) (hfirst : ∀ l, i ≤ l → l < j → p l = false) :
    find_from p count i = some j := by
  cases hf : find_from p count i with
  | none => have := find_from_none hf j h1 h2; simp [hp] at this
  | some k =>
    obtain ⟨a, b, c, d⟩ := find_from_some hf
    rcases Nat.lt_trichotomy k j with hlt | heq | hgt
    · have := hfirst k a hlt; simp [c] at this
    · rw [heq]
    · have := d j h1 hgt; simp [hp] at this

theorem bubble_perm (H : List node_t) (x : gap_t) (R : List gap_t) :
    List.Perm (bubble H x R) (x :: R) := by
  induction R generalizing x with
  | nil => simp [bubble]
  | cons p R ih =>
    unfold bubble
    split
    · exact ((ih x).cons p).trans (List.Perm.swap x p R)
    · exact (ih p).cons x

theorem gap_insert_perm (H : List node_t) (e : gap_t) (A : List gap_t) :
    List.Perm (gap_insert H e A) (e :: A) := by
  unfold gap_insert
  exact (List.reverse_perm _).trans
    ((bubble_perm H e A.reverse).trans ((List.reverse_perm A).cons e))

theorem mem_gap_insert {H : List node_t} {e a : gap_t} {A : List gap_t} :
    a ∈ gap_insert H e A ↔ a = e ∨ a ∈ A := by
  rw [(gap_insert_perm H e A).mem_iff]; simp

theorem shift_loop_append (A : List gap_t) (e : gap_t) (B : List gap_t) (t : gap_t)
    (T : List gap_t) :
    shift_loop (B.length + 1) A.length (A ++ e :: (B ++ t :: T)) = A ++ (B ++ t :: t :: T) := by
  induction B generalizing A e with
  | nil =>
    have h1 : gap_at (A ++ e :: t :: T) (A.length + 1) = t := by
      simpa [gap_at] using gap_at_length_succ A e (t :: T)
    simp [shift_loop, h1, set_at_length]
  | cons b B ih =>
    have h1 : gap_at (A ++ e :: (b :: B ++ t :: T)) (A.length + 1) = b := by
      simpa [gap_at] using gap_at_length_succ A e (b :: B ++ t :: T)
    have h2 := ih (A ++ [b]) b
    simp only [List.length_append, List.length_singleton, List.append_assoc,
      List.singleton_append] at h2
    unfold shift_loop
    rw [h1, set_at_length]
    simpa using h2

/-- What `_mem_remove_from_gap_ix` does when no live entry points to `node`. -/
theorem remove_from_gap_ix_absent (m : pool_mgr_t) (size node : Nat)
    (h : ∀ i, i < m.pool.num_gaps → (gap_at m.gap_ix i).node ≠ some node) :
    _mem_remove_from_gap_ix m size node = (m, alloc_status.ALLOC_FAIL) := by
  have hfind : find_from (fun i => (gap_at m.gap_ix i).node == some node) m.pool.num_gaps 0
      = none := by
    cases hf : find_from (fun i => (gap_at m.gap_ix i).node == some node) m.pool.num_gaps 0 with
    | none => rfl
    | some j =>
      obtain ⟨_, h2, h3, _⟩ := find_from_some hf
      have := h j (by omega)
      simp [this] at h3
  unfold _mem_remove_from_gap_ix
  simp only [hfind]

theorem gap_at_mem {A : List gap_t} {l : Nat} (hl : l < A.length) : gap_at A l ∈ A := by
  simp only [gap_at, List.getD_eq_getElem?_getD, List.getElem?_eq_getElem hl, Option.getD_some]
  exact List.getElem_mem hl

theorem take_succ_split {α : Type} (G : List α) (n : Nat) (h : n < G.length) :
    ∃ y S, G = G.take n ++ y :: S := by
  have h1 := List.take_append_drop n G
  cases hd : G.drop n with
  | nil =>
    have := congrArg List.length hd
    simp at this
    omega
  | cons y S =>
    rw [hd] at h1
    exact ⟨y, S, h1.symm⟩

theorem live_gaps_of_append (m : pool_mgr_t) (A : List gap_t) (S : List gap_t)
    (hG : m.gap_ix = A ++ S) (hn : m.pool.num_gaps = A.length) : live_gaps m = A := by
  unfold live_gaps
  rw [hG, hn]
  simp

/-- What `_mem_remove_from_gap_ix` does to an index whose live entries are
`A ++ e :: B`, where `e` is the first entry that points to `node`, and that
has at least one more slot. -/
theorem remove_from_gap_ix_general (m : pool_mgr_t) (size node : Nat) (A : List gap_t)
    (e : gap_t) (B : List gap_t) (t : gap_t) (T : List gap_t)
    (hG : m.gap_ix = A ++ e :: (B ++ t :: T))
    (hn : m.pool.num_gaps = A.length + 1 + B.length)
    (he : e.node = some node) (hA : ∀ a ∈ A, a.node ≠ some node) :
    _mem_remove_from_gap_ix m size node =
      ({ m with
          gap_ix := A ++ (B ++ blank_gap :: t :: T)
          pool := { m.pool with num_gaps := A.length + B.length } },
        alloc_status.ALLOC_OK) := by
  have hfind : find_from (fun i => (gap_at m.gap_ix i).node == some node) m.pool.num_gaps 0
      = some A.length := by
    apply find_from_first (Nat.zero_le _) (by omega)
    · simp [hG, gap_at_length, he]
    · intro l _ hl
      have := hA _ (gap_at_mem hl)
      simp [hG, gap_at_append_left hl, this]
  unfold _mem_remove_from_gap_ix
  simp only [hfind]
  have hcount : m.pool.num_gaps - A.length = B.length + 1 := by omega
  have hshift := shift_loop_append A e B t T
  have hidx : m.pool.num_gaps - 1 = (A ++ B).length := by simp; omega
  have hset := set_at_length (A ++ B) t blank_gap (t :: T)
  simp only [List.append_assoc] at hset
  rw [hcount, hidx, hG, hshift, hset]
  simp

theorem first_split (Es : List gap_t) (node : Nat) (h : ∃ e ∈ Es, e.node = some node) :
    ∃ A e B, Es = A ++ e :: B ∧ e.node = some node ∧ ∀ a ∈ A, a.node ≠ some node := by
  induction Es with
  | nil =>
    obtain ⟨e, he, _⟩ := h
    cases he
  | cons x rest ih =>
    by_cases hx : x.node = some node
    · exact ⟨[], x, rest, rfl, hx, fun a ha => by cases ha⟩
    · have h2 : ∃ e ∈ rest, e.node = some node := by
        obtain ⟨e, he, hen⟩ := h
        rcases List.mem_cons.mp he with h1 | h1
        · subst h1
          exact absurd hen hx
        · exact ⟨e, h1, hen⟩
      obtain ⟨A, e, B, hsplit, he, hA⟩ := ih h2
      refine ⟨x :: A, e, B, by rw [hsplit]; rfl, he, ?_⟩
      intro a ha
      rcases List.mem_cons.mp ha with h1 | h1
      · subst h1
        exact hx
      · exact hA a h1

theorem clear_slots_length (p count i : Nat) (s : List (Option Nat)) :
    (clear_slots p count i s).length = s.length := by
  induction count generalizing i s with
  | zero => rfl
  | succ c ih =>
    unfold clear_slots
    rw [ih]
    split <;> simp

theorem clear_slots_getD (p count i : Nat) (s : List (Option Nat)) (j : Nat) :
    (clear_slots p count i s).getD j none =
      if i ≤ j ∧ j < i + count ∧ s.getD j none = some p then none else s.getD j none := by
  induction count generalizing i s with
  | zero =>
    unfold clear_slots
    rw [if_neg (by omega)]
  | succ c ih =>
    unfold clear_slots
    rw [ih]
    have hset : ∀ (t : List (Option Nat)) (k : Nat),
        (t.set k none).getD j none = if k = j then none else t.getD j none := by
      intro t k
      simp only [List.getD_eq_getElem?_getD, List.getElem?_set]
      by_cases hk : k = j
      · simp only [hk, if_true]
        split <;> rfl
      · simp only [hk, if_false]
    by_cases hi : s.getD i none = some p
    · rw [if_pos hi, hset]
      by_cases hij : i = j
      · subst hij
        have hpos : i ≤ i ∧ i < i + (c + 1) ∧ s.getD i none = some p :=
          ⟨le_refl _, by omega, hi⟩
        rw [if_pos hpos]
        simp
      · rw [if_neg hij]
        by_cases hr : i + 1 ≤ j ∧ j < i + 1 + c ∧ s.getD j none = some p
        · rw [if_pos hr, if_pos ⟨by omega, by omega, hr.2.2⟩]
        · rw [if_neg hr, if_neg (fun hc => hr ⟨by omega, by omega, hc.2.2⟩)]
    · rw [if_neg hi]
      by_cases hr : i + 1 ≤ j ∧ j < i + 1 + c ∧ s.getD j none = some p
      · rw [if_pos hr, if_pos ⟨by omega, by omega, hr.2.2⟩]
      · have hne : ¬ (i ≤ j ∧ j < i + (c + 1) ∧ s.getD j none = some p) := by
          rintro ⟨h1, h2, h3⟩
          by_cases hij : i = j
          · subst hij
            exact hi h3
          · exact hr ⟨by omega, by omega, h3⟩
        rw [if_neg hr, if_neg hne]

theorem set_node_node_at (m : pool_mgr_t) (i : Nat) (f : node_t → node_t) (j : Nat)
    (h : i < m.node_heap.length) :
    node_at (set_node m i f).node_heap j = if j = i then f (node_at m.node_heap i)
      else node_at m.node_heap j := by
  unfold set_node
  exact node_at_set _ _ h

theorem set_node_length (m : pool_mgr_t) (i : Nat) (f : node_t → node_t) :
    (set_node m i f).node_heap.length = m.node_heap.length := by
  simp [set_node]

theorem set_node_fields (m : pool_mgr_t) (i : Nat) (f : node_t → node_t) :
    (set_node m i f).pool = m.pool ∧ (set_node m i f).gap_ix = m.gap_ix ∧
    (set_node m i f).gap_ix_capacity = m.gap_ix_capacity ∧
    (set_node m i f).total_nodes = m.total_nodes ∧
    (set_node m i f).used_nodes = m.used_nodes ∧
    (set_node m i f).node_heap.length = m.node_heap.length :=
  ⟨rfl, rfl, rfl, rfl, rfl, set_node_length m i f⟩

theorem link_remainder_fields (m : pool_mgr_t) (n u size rem : Nat) :
    (link_remainder m n u size rem).pool = m.pool ∧
    (link_remainder m n u size rem).gap_ix = m.gap_ix ∧
    (link_remainder m n u size rem).gap_ix_capacity = m.gap_ix_capacity ∧
    (link_remainder m n u size rem).total_nodes = m.total_nodes ∧
    (link_remainder m n u size rem).used_nodes = (m.used_nodes + 1) % UNSIGNED_RANGE ∧
    (link_remainder m n u size rem).node_heap.length = m.node_heap.length := by
  unfold link_remainder
  simp only []
  split <;> simp only [set_node_fields, set_node_length, and_self]

theorem absorb_next_fields (m : pool_mgr_t) (h x : Nat) :
    (absorb_next m h x).pool = m.pool ∧
    (absorb_next m h x).gap_ix = m.gap_ix ∧
    (absorb_next m h x).gap_ix_capacity = m.gap_ix_capacity ∧
    (absorb_next m h x).total_nodes = m.total_nodes ∧
    (absorb_next m h x).used_nodes = (m.used_nodes + (UNSIGNED_RANGE - 1)) % UNSIGNED_RANGE ∧
    (absorb_next m h x).node_heap.length = m.node_heap.length := by
  unfold absorb_next
  simp only []
  split <;> simp only [set_node_fields, set_node_length, and_self]

theorem absorb_into_prev_fields (m : pool_mgr_t) (h p : Nat) :
    (absorb_into_prev m h p).pool = m.pool ∧
    (absorb_into_prev m h p).gap_ix = m.gap_ix ∧
    (absorb_into_prev m h p).gap_ix_capacity = m.gap_ix_capacity ∧
    (absorb_into_prev m h p).total_nodes = m.total_nodes ∧
    (absorb_into_prev m h p).used_nodes = (m.used_nodes + (UNSIGNED_RANGE - 1)) % UNSIGNED_RANGE ∧
    (absorb_into_prev m h p).node_heap.length = m.node_heap.length := by
  unfold absorb_into_prev
  simp only []
  split <;> simp only [set_node_fields, set_node_length, and_self]


/-! ## Calls that reach no growth check -/

/-- When the gap index is not more than three quarters full, the insertion
calls no `realloc`: its result does not depend on the answer. -/
theorem add_to_gap_ix_low (m : pool_mgr_t) (size node : Nat) (r : Option (Nat → gap_t))
    (h : 4 * m.pool.num_gaps ≤ 3 * m.gap_ix_capacity) :
    _mem_add_to_gap_ix m size node r = _mem_add_to_gap_ix m size node none := by
  have hn : ¬ (3 * m.gap_ix_capacity < 4 * m.pool.num_gaps) := by omega
  unfold _mem_add_to_gap_ix _mem_resize_gap_ix
  simp only [hn, if_false]

/-- The removal never raises the gap count and leaves the capacity alone. -/
theorem remove_bounds (k : pool_mgr_t) (size node : Nat) :
    (_mem_remove_from_gap_ix k size node).1.pool.num_gaps ≤ k.pool.num_gaps ∧
      (_mem_remove_from_gap_ix k size node).1.gap_ix_capacity = k.gap_ix_capacity := by
  unfold _mem_remove_from_gap_ix
  cases find_from (fun i => (gap_at k.gap_ix i).node == some node) k.pool.num_gaps 0 with
  | none => exact ⟨Nat.le_refl _, rfl⟩
  | some pos => exact ⟨Nat.sub_le _ _, rfl⟩

theorem merge_next_bounds (k : pool_mgr_t) (node nx : Nat) :
    (merge_next k node nx).1.pool.num_gaps ≤ k.pool.num_gaps ∧
      (merge_next k node nx).1.gap_ix_capacity = k.gap_ix_capacity := by
  have hr := remove_bounds k (node_at k.node_heap nx).alloc_record.size nx
  unfold merge_next
  rcases hrem : _mem_remove_from_gap_ix k (node_at k.node_heap nx).alloc_record.size nx
    with ⟨k2, st⟩
  rw [hrem] at hr
  cases st
  · obtain ⟨f1, _, f3, _⟩ := absorb_next_fields k2 node nx
    show (absorb_next k2 node nx).pool.num_gaps ≤ _ ∧ (absorb_next k2 node nx).gap_ix_capacity = _
    rw [f1, f3]
    exact hr
  · exact hr
  · exact hr
  · exact hr

theorem merge_prev_bounds (k : pool_mgr_t) (node pv : Nat) :
    (merge_prev k node pv).1.pool.num_gaps ≤ k.pool.num_gaps ∧
      (merge_prev k node pv).1.gap_ix_capacity = k.gap_ix_capacity := by
  have hr := remove_bounds k (node_at k.node_heap pv).alloc_record.size pv
  unfold merge_prev
  rcases hrem : _mem_remove_from_gap_ix k (node_at k.node_heap pv).alloc_record.size pv
    with ⟨k2, st⟩
  rw [hrem] at hr
  cases st
  · obtain ⟨f1, _, f3, _⟩ := absorb_into_prev_fields k2 node pv
    show (absorb_into_prev k2 node pv).pool.num_gaps ≤ _ ∧
      (absorb_into_prev k2 node pv).gap_ix_capacity = _
    rw [f1, f3]
    exact hr
  · exact hr
  · exact hr
  · exact hr

theorem try_merge_next_bounds (k : pool_mgr_t) (node : Nat) :
    (try_merge_next k node).1.pool.num_gaps ≤ k.pool.num_gaps ∧
      (try_merge_next k node).1.gap_ix_capacity = k.gap_ix_capacity := by
  unfold try_merge_next
  cases (node_at k.node_heap node).next with
  | none => simp
  | some nx =>
    by_cases hz : (node_at k.node_heap nx).allocated = 0
    · simp only [hz, if_true]
      exact merge_next_bounds k node nx
    · simp [hz]

theorem try_merge_prev_bounds (k : pool_mgr_t) (node : Nat) :
    (try_merge_prev k node).1.pool.num_gaps ≤ k.pool.num_gaps ∧
      (try_merge_prev k node).1.gap_ix_capacity = k.gap_ix_capacity := by
  unfold try_merge_prev
  cases (node_at k.node_heap node).prev with
  | none => simp
  | some pv =>
    by_cases hz : (node_at k.node_heap pv).allocated = 0
    · simp only [hz, if_true]
      have hr := merge_prev_bounds k node pv
      rcases hmp : merge_prev k node pv with ⟨k2, st⟩
      rw [hmp] at hr
      cases st <;> exact hr
    · simp [hz]

/-- A release in a pool whose gap index is not more than three quarters full
calls no `realloc`: its result does not depend on the answer. -/
theorem mem_del_alloc_low (m : pool_mgr_t) (alloc : Nat) (rg : Option (Nat → gap_t))
    (h : 4 * m.pool.num_gaps ≤ 3 * m.gap_ix_capacity) :
    mem_del_alloc m alloc rg = mem_del_alloc m alloc none := by
  unfold mem_del_alloc
  cases find_from (fun i => decide (i = alloc)) m.total_nodes 0 with
  | none => rfl
  | some node =>
    simp only []
    have h1 := try_merge_next_bounds (mark_released m node alloc) node
    have e1 : (mark_released m node alloc).pool.num_gaps = m.pool.num_gaps := rfl
    have e2 : (mark_released m node alloc).gap_ix_capacity = m.gap_ix_capacity := rfl
    rw [e1, e2] at h1
    rcases hn : try_merge_next (mark_released m node alloc) node with ⟨k1, st1⟩
    rw [hn] at h1
    simp only [] at h1
    cases st1
    · simp only []
      have h2 := try_merge_prev_bounds k1 node
      rcases hp : try_merge_prev k1 node with ⟨k2, nd, st2⟩
      rw [hp] at h2
      simp only [] at h2
      cases st2
      · simp only []
        rw [add_to_gap_ix_low k2 _ _ rg (by rw [h2.2, h1.2]; have := h1.1; have := h2.1; omega)]
      · rfl
      · rfl
      · rfl
    · rfl
    · rfl
    · rfl

/-- The part of an allocation after the node is found, in a pool whose gap
index is not more than three quarters full, calls no `realloc`. -/
theorem alloc_in_node_low (m : pool_mgr_t) (node size : Nat) (rg : Option (Nat → gap_t))
    (h : 4 * m.pool.num_gaps ≤ 3 * m.gap_ix_capacity) :
    alloc_in_node m node size rg = alloc_in_node m node size none := by
  unfold alloc_in_node
  dsimp only
  have hb := remove_bounds
    { m with pool := { m.pool with
      num_allocs := (m.pool.num_allocs + 1) % UNSIGNED_RANGE,
      alloc_size := (m.pool.alloc_size + size) % SIZE_RANGE } } size node
  rcases hrem : _mem_remove_from_gap_ix
    { m with pool := { m.pool with
      num_allocs := (m.pool.num_allocs + 1) % UNSIGNED_RANGE,
      alloc_size := (m.pool.alloc_size + size) % SIZE_RANGE } } size node with ⟨k, st⟩
  rw [hrem] at hb
  have hb1 : k.pool.num_gaps ≤ m.pool.num_gaps := hb.1
  have hb2 : k.gap_ix_capacity = m.gap_ix_capacity := hb.2
  cases st
  · show (if ((node_at m.node_heap node).alloc_record.size + (SIZE_RANGE - size % SIZE_RANGE)) % SIZE_RANGE ≠ 0 then _ else _) =
      (if ((node_at m.node_heap node).alloc_record.size + (SIZE_RANGE - size % SIZE_RANGE)) % SIZE_RANGE ≠ 0 then _ else _)
    by_cases hrem0 : ((node_at m.node_heap node).alloc_record.size + (SIZE_RANGE - size % SIZE_RANGE)) % SIZE_RANGE ≠ 0
    · rw [if_pos hrem0, if_pos hrem0]
      cases hf : find_unused (set_node k node (fun n =>
          { n with allocated := 1, alloc_record := { n.alloc_record with size := size } })) with
      | none => rfl
      | some u =>
        show (_mem_add_to_gap_ix _ _ _ rg, some node) = (_mem_add_to_gap_ix _ _ _ none, some node)
        rw [add_to_gap_ix_low _ _ _ rg]
        obtain ⟨l1, _, l3, _⟩ := link_remainder_fields
          (set_node k node (fun n =>
            { n with allocated := 1, alloc_record := { n.alloc_record with size := size } }))
          node u size (((node_at m.node_heap node).alloc_record.size + (SIZE_RANGE - size % SIZE_RANGE)) % SIZE_RANGE)
        rw [l1, l3]
        show 4 * k.pool.num_gaps ≤ 3 * k.gap_ix_capacity
        rw [hb2]
        omega
    · rw [if_neg hrem0, if_neg hrem0]
  · rfl
  · rfl
  · rfl

/-- An allocation in a pool whose slab and whose gap index are not more than
three quarters full calls no `realloc`: its result does not depend on the
answers. -/
theorem mem_new_alloc_low (m : pool_mgr_t) (size : Nat) (rs : Option slab_block)
    (rg : Option (Nat → gap_t)) (hs : 4 * m.used_nodes ≤ 3 * m.total_nodes)
    (hg : 4 * m.pool.num_gaps ≤ 3 * m.gap_ix_capacity) :
    mem_new_alloc m size rs rg = mem_new_alloc m size none none := by
  have hn : ¬ (3 * m.total_nodes < 4 * m.used_nodes) := by omega
  unfold mem_new_alloc _mem_resize_node_heap
  simp only [hn, if_false]
  by_cases h0 : m.pool.num_gaps = 0
  · simp only [h0, if_true]
  · simp only [h0, if_false]
    by_cases h1 : m.total_nodes < m.used_nodes
    · simp only [h1, if_true]
    · simp only [h1, if_false]
      cases select_node m size with
      | none => rfl
      | some node => exact alloc_in_node_low m node size rg hg

/-- The handles do not move in a call that does not grow the slab. -/
theorem handle_shift_low (m : pool_mgr_t) (rs : Option slab_block)
    (hs : 4 * m.used_nodes ≤ 3 * m.total_nodes) : handle_shift m rs = 0 := by
  have hn : ¬ (3 * m.total_nodes < 4 * m.used_nodes) := by omega
  unfold handle_shift
  simp only [hn, if_false]
  split <;> rfl

/-! ## Sequences of calls -/

theorem after_call_reachable {b : heap_block} {size : Nat} {policy : alloc_policy}
    {s : pool_mgr_t × List Nat} (hr : Reachable b size policy s.1 s.2) (c : call)
    (hok : calls_ok s [c] = true) :
    Reachable b size policy (after_call s c).1 (after_call s c).2 := by
  cases c with
  | new_alloc n rs rg =>
    have hn : 0 < n := by simpa [calls_ok] using hok
    exact Reachable.alloc s.1 s.2 n rs rg hr hn
  | del_alloc h rg =>
    have hh : h ∈ s.2 := by simpa [calls_ok] using hok
    exact Reachable.del s.1 s.2 h rg hr hh

/-- A sequence of calls that the caller may make leads from a reachable pool
to a reachable pool. -/
theorem after_calls_reachable {b : heap_block} {size : Nat} {policy : alloc_policy}
    (cs : List call) {s : pool_mgr_t × List Nat} (hr : Reachable b size policy s.1 s.2)
    (hok : calls_ok s cs = true) :
    Reachable b size policy (after_calls s cs).1 (after_calls s cs).2 := by
  induction cs generalizing s with
  | nil => exact hr
  | cons c rest ih =>
    have h1 : calls_ok s [c] = true ∧ calls_ok (after_call s c) rest = true := by
      simp only [calls_ok, Bool.and_eq_true, Bool.and_true] at hok ⊢
      exact hok
    have := after_call_reachable hr c h1.1
    exact ih this h1.2


/-! ## Reachability of the pools of the scenarios -/

theorem demo_pool_reachable (policy : alloc_policy) :
    Reachable demo_block 1024 policy (demo_pool policy) [] := by
  cases policy
  · exact Reachable.opened demo_registry _ _ (by decide) rfl
  · exact Reachable.opened demo_registry _ _ (by decide) rfl

theorem stale_pool_reachable :
    Reachable stale_block 1024 alloc_policy.FIRST_FIT stale_pool [] :=
  Reachable.opened demo_registry _ _ (by decide) rfl

theorem wrap_pool_reachable :
    Reachable wrap_block 1024 alloc_policy.FIRST_FIT (opened_pool wrap_block) [] :=
  Reachable.opened demo_registry _ _ (by decide) rfl

theorem demo_stale_reachable :
    Reachable demo_block 1024 alloc_policy.FIRST_FIT demo_stale [2] := by
  have h := after_calls_reachable (s := (demo_pool alloc_policy.FIRST_FIT, [])) stale_calls
    (demo_pool_reachable _) (by decide)
  have e : (after_calls (demo_pool alloc_policy.FIRST_FIT, []) stale_calls).2 = [2] := by decide
  rw [e] at h
  exact h

theorem demo_slab_order_reachable :
    Reachable demo_block 1024 alloc_policy.FIRST_FIT demo_slab_order [3, 0] := by
  have h := after_calls_reachable (s := (demo_pool alloc_policy.FIRST_FIT, [])) slab_order_calls
    (demo_pool_reachable _) (by decide)
  have e : (after_calls (demo_pool alloc_policy.FIRST_FIT, []) slab_order_calls).2 = [3, 0] := by
    decide
  rw [e] at h
  exact h

theorem pool30_reachable (policy : alloc_policy) :
    Reachable demo_block 1024 policy (pool30 policy).1 (pool30 policy).2 := by
  cases policy
  · exact after_calls_reachable (s := (demo_pool alloc_policy.FIRST_FIT, [])) thirty_allocs
      (demo_pool_reachable _) (by decide)
  · exact after_calls_reachable (s := (demo_pool alloc_policy.BEST_FIT, [])) thirty_allocs
      (demo_pool_reachable _) (by decide)

theorem pool_moved_reachable :
    Reachable demo_block 1024 alloc_policy.FIRST_FIT pool_moved.1 pool_moved.2 :=
  after_calls_reachable (s := (demo_pool alloc_policy.FIRST_FIT, [])) moved_calls
    (demo_pool_reachable _) (by decide)

theorem pool39_reachable (policy : alloc_policy) :
    Reachable demo_block 1024 policy (pool39 policy).1 (pool39 policy).2 := by
  cases policy
  · exact after_calls_reachable (s := (demo_pool alloc_policy.FIRST_FIT, [])) junk_calls
      (demo_pool_reachable _) (by decide)
  · exact after_calls_reachable (s := (demo_pool alloc_policy.BEST_FIT, [])) junk_calls
      (demo_pool_reachable _) (by decide)

theorem pool40_reachable (policy : alloc_policy) :
    Reachable demo_block 1024 policy (pool40 policy).1 (pool40 policy).2 :=
  after_call_reachable (pool39_reachable policy) (call.new_alloc 10 none none)
    (by simp [calls_ok])

/-- C17 (gap-index remove): on a gap index with `num_gaps` below its length,
`_mem_remove_from_gap_ix` answers `ALLOC_FAIL` and changes nothing when none of
the first `num_gaps` entries points to `node`; otherwise, with `e` the first
entry that points to `node`, `A` the entries before it and `B` the live
entries after it, it answers `ALLOC_OK`, lowers `num_gaps` by one, leaves
`A ++ B` as the first `num_gaps` entries (so every order relation that held
between the old entries holds between the new ones), clears the slot at the
new index `num_gaps`, and changes neither the length of the index, nor the
slots from the old `num_gaps` on, nor anything else in the manager. -/
theorem remove_from_gap_ix_spec (m : pool_mgr_t) (size node : Nat)
    (hcap : m.pool.num_gaps < m.gap_ix.length) :
    ((∀ e ∈ live_gaps m, e.node ≠ some node) →
      _mem_remove_from_gap_ix m size node = (m, alloc_status.ALLOC_FAIL)) ∧
    ((∃ e ∈ live_gaps m, e.node = some node) →
      ∃ A e B, live_gaps m = A ++ e :: B ∧ e.node = some node ∧
        (∀ a ∈ A, a.node ≠ some node) ∧
        (_mem_remove_from_gap_ix m size node).2 = alloc_status.ALLOC_OK ∧
        (_mem_remove_from_gap_ix m size node).1.pool.num_gaps + 1 = m.pool.num_gaps ∧
        live_gaps (_mem_remove_from_gap_ix m size node).1 = A ++ B ∧
        gap_at (_mem_remove_from_gap_ix m size node).1.gap_ix
          (_mem_remove_from_gap_ix m size node).1.pool.num_gaps = blank_gap ∧
        (_mem_remove_from_gap_ix m size node).1.gap_ix.length = m.gap_ix.length ∧
        (_mem_remove_from_gap_ix m size node).1.gap_ix.drop m.pool.num_gaps =
          m.gap_ix.drop m.pool.num_gaps ∧
        (_mem_remove_from_gap_ix m size node).1.node_heap = m.node_heap ∧
        { (_mem_remove_from_gap_ix m size node).1 with gap_ix := m.gap_ix, pool := m.pool } = m ∧
        { (_mem_remove_from_gap_ix m size node).1.pool with num_gaps := m.pool.num_gaps } =
          m.pool ∧
        ∀ R : gap_t → gap_t → Prop, (live_gaps m).Pairwise R →
          (live_gaps (_mem_remove_from_gap_ix m size node).1).Pairwise R) := by
  obtain ⟨t, T, hsplit⟩ := take_succ_split m.gap_ix m.pool.num_gaps hcap
  have hAlen : (live_gaps m).length = m.pool.num_gaps := by
    unfold live_gaps
    rw [List.length_take]
    omega
  have hsplit2 : m.gap_ix = live_gaps m ++ t :: T := hsplit
  constructor
  · intro h
    apply remove_from_gap_ix_absent
    intro i hi
    have hi2 : i < (live_gaps m).length := by omega
    have hmem := gap_at_mem hi2
    have hg : gap_at m.gap_ix i = gap_at (live_gaps m) i := by
      rw [hsplit2, gap_at_append_left hi2]
    rw [hg]
    exact h _ hmem
  · intro h
    obtain ⟨A, e, B, hAB, he, hA⟩ := first_split (live_gaps m) node h
    refine ⟨A, e, B, hAB, he, hA, ?_⟩
    have hG : m.gap_ix = A ++ e :: (B ++ t :: T) := by
      rw [hsplit2, hAB]
      simp
    have hn : m.pool.num_gaps = A.length + 1 + B.length := by
      rw [← hAlen, hAB]
      simp
      omega
    have heq := remove_from_gap_ix_general m size node A e B t T hG hn he hA
    rw [heq]
    have hlive : live_gaps
        { m with
          gap_ix := A ++ (B ++ blank_gap :: t :: T)
          pool := { m.pool with num_gaps := A.length + B.length } } = A ++ B := by
      apply live_gaps_of_append _ _ (blank_gap :: t :: T)
      · simp
      · simp
    refine ⟨rfl, ?_, hlive, ?_, ?_, ?_, rfl, ?_, ?_, ?_⟩
    · show A.length + B.length + 1 = m.pool.num_gaps
      omega
    · show gap_at (A ++ (B ++ blank_gap :: t :: T)) (A.length + B.length) = blank_gap
      have := gap_at_length (A ++ B) blank_gap (t :: T)
      simpa using this
    · show (A ++ (B ++ blank_gap :: t :: T)).length = m.gap_ix.length
      rw [hG]
      simp
      omega
    · show (A ++ (B ++ blank_gap :: t :: T)).drop m.pool.num_gaps = m.gap_ix.drop m.pool.num_gaps
      have e1 : A ++ (B ++ blank_gap :: t :: T) = (A ++ (B ++ [blank_gap])) ++ t :: T := by simp
      have e2 : m.gap_ix = (A ++ e :: B) ++ t :: T := by rw [hG]; simp
      have l1 : (A ++ (B ++ [blank_gap])).length = m.pool.num_gaps := by simp; omega
      have l2 : (A ++ e :: B).length = m.pool.num_gaps := by simp; omega
      rw [e1, e2, ← l1, List.drop_left, l1, ← l2, List.drop_left]
    · cases m
      rfl
    · cases m with
      | mk pool _ _ _ _ _ =>
        cases pool
        rfl
    · intro R hR
      rw [hlive]
      rw [hAB] at hR
      exact hR.sublist (List.Sublist.append_left (List.sublist_cons_self e B) A)

/-- Witness of C17: from the gap index of scenario 4 after the first release,
with the entries `(100, slot 0)` and `(874, slot 2)`, the entry of slot 0 is
removed; the entry of slot 2 moves to the front. -/
theorem remove_from_gap_ix_spec_witness :
    live_gaps (demo_del1 alloc_policy.FIRST_FIT) =
        [{ size := 100, node := some 0 }, { size := 874, node := some 2 }] ∧
      _mem_remove_from_gap_ix (demo_del1 alloc_policy.FIRST_FIT) 7 5 =
        (demo_del1 alloc_policy.FIRST_FIT, alloc_status.ALLOC_FAIL) ∧
      (_mem_remove_from_gap_ix (demo_del1 alloc_policy.FIRST_FIT) 100 0).2 =
        alloc_status.ALLOC_OK ∧
      live_gaps (_mem_remove_from_gap_ix (demo_del1 alloc_policy.FIRST_FIT) 100 0).1 =
        [{ size := 874, node := some 2 }] :=
  ⟨by decide,
    (remove_from_gap_ix_spec (demo_del1 alloc_policy.FIRST_FIT) 7 5 (by decide)).1 (by decide),
    by decide, by decide⟩

/-- A handle that is not the address of a slab slot is rejected by
`mem_del_alloc`, and the pool is left as it was. -/
theorem del_alloc_outside_slab (m : pool_mgr_t) (alloc : Nat) (rg : Option (Nat → gap_t))
    (h : m.total_nodes ≤ alloc) : mem_del_alloc m alloc rg = (m, alloc_status.ALLOC_FAIL) := by
  unfold mem_del_alloc
  have hnone : find_from (fun i => decide (i = alloc)) m.total_nodes 0 = none := by
    cases hf : find_from (fun i => decide (i = alloc)) m.total_nodes 0 with
    | none => rfl
    | some j =>
      have := find_from_some hf
      have hj : j = alloc := by simpa using this.2.2.1
      omega
  rw [hnone]

/-- What `mem_pool_close` looks at: it
returns `ALLOC_OK` when the pool has exactly one gap and zero outstanding
allocations (as its counters `num_gaps` and `num_allocs` say) and
`ALLOC_NOT_FREED` when it has an outstanding allocation or a gap count other
than one.  On `ALLOC_NOT_FREED` the pool and the registry are unchanged.  On
`ALLOC_OK` the manager is released, every registry slot below
`pool_store_size` that held this pool is cleared, every other slot is
unchanged, and `pool_store_size` and the capacity stay as they were. -/
theorem close_by_counters (g : registry_t) (p : Nat) (m : pool_mgr_t) :
    ((m.pool.num_allocs ≠ 0 ∨ m.pool.num_gaps ≠ 1) →
      mem_pool_close g (some (p, m)) = (alloc_status.ALLOC_NOT_FREED, g, some m)) ∧
    ((m.pool.num_gaps = 1 ∧ m.pool.num_allocs = 0) →
      (mem_pool_close g (some (p, m))).1 = alloc_status.ALLOC_OK ∧
      (mem_pool_close g (some (p, m))).2.2 = none ∧
      (mem_pool_close g (some (p, m))).2.1.pool_store_size = g.pool_store_size ∧
      (mem_pool_close g (some (p, m))).2.1.pool_store_capacity = g.pool_store_capacity ∧
      ∀ st, g.pool_store = some st →
        ∃ st', (mem_pool_close g (some (p, m))).2.1.pool_store = some st' ∧
          st'.length = st.length ∧
          ∀ j, st'.getD j none =
            if j < g.pool_store_size ∧ st.getD j none = some p then none
            else st.getD j none) := by
  constructor
  · intro h
    unfold mem_pool_close
    by_cases hg : m.pool.num_gaps = 1
    · have ha : m.pool.num_allocs ≠ 0 := by
        rcases h with h | h
        · exact h
        · exact absurd hg h
      simp [hg, ha]
    · simp [hg]
  · rintro ⟨hg, ha⟩
    unfold mem_pool_close
    simp only [hg, ha, ne_eq, not_true_eq_false, if_false, true_and]
    intro st hst
    refine ⟨clear_slots p g.pool_store_size 0 st, by rw [hst]; rfl, clear_slots_length _ _ _ _, ?_⟩
    intro j
    rw [clear_slots_getD]
    simp

/-! ## Closing after a full release -/

/-- With no allocation outstanding after the calls of scenarios 2 to 4, the
pool is one gap; whether `mem_pool_close` accepts it is decided by what the
manager block held.
C10 (full release makes the pool closable), divergence: the scenario of the
claim, `open(1024)`, `allocate(100)`, `allocate(50)`, release of both, run
in a manager block whose `num_allocs` word held 1 when `malloc` returned it.
Every allocation has been released and the pool is the single gap
`[(1024, 0)]` with `num_gaps = 1`, yet `num_allocs` is 1 and `mem_pool_close`
answers `ALLOC_NOT_FREED`, leaving pool and registry as they were. -/
theorem full_release_close_refused :
    Reachable stale_block 1024 alloc_policy.FIRST_FIT (scenario_pool stale_block) [] ∧
      mem_inspect_pool (scenario_pool stale_block) = [{ size := 1024, allocated := 0 }] ∧
      (scenario_pool stale_block).pool.num_gaps = 1 ∧
      (scenario_pool stale_block).pool.num_allocs = 1 ∧
      mem_pool_close (scenario_registry stale_block) (some (1, scenario_pool stale_block)) =
        (alloc_status.ALLOC_NOT_FREED, scenario_registry stale_block,
          some (scenario_pool stale_block)) := by
  have h := after_calls_reachable (s := (opened_pool stale_block, [])) scenario_calls
    stale_pool_reachable (by decide)
  have e : (after_calls (opened_pool stale_block, []) scenario_calls).2 = [] := by decide
  rw [e] at h
  refine ⟨h, by decide, by decide, by decide, ?_⟩
  unfold mem_pool_close
  have hg : (scenario_pool stale_block).pool.num_gaps = 1 := by decide
  have ha : (scenario_pool stale_block).pool.num_allocs = 1 := by decide
  simp [hg, ha]

/-! ## Handles that are not active regions -/

/-- C11 (deallocate rejects handles that are not active regions), divergence:
in the pool `demo_stale` the slot 1 is inactive (its region was absorbed into
the gap before it), so the handle 1 identifies no active region; yet
`mem_del_alloc` on it answers `ALLOC_OK`, lowers the allocation count from 1
to 0 and the allocated bytes from 200 to 150 although the 200-byte allocation
in slot 2 is still outstanding, and puts an entry for the inactive slot into
the gap index, whose count goes from 2 to 3 while the snapshot still has two
gaps.  The only test the function makes is that the pointer is the address of
a slab slot.  No `realloc` is called, so the answer `rg` plays no part. -/
theorem del_alloc_stale_handle_accepted :
    Reachable demo_block 1024 alloc_policy.FIRST_FIT demo_stale [2] ∧
      (node_at demo_stale.node_heap 1).used = 0 ∧
      region_slots demo_stale = [0, 2, 3] ∧
      mem_inspect_pool demo_stale =
        [{ size := 150, allocated := 0 }, { size := 200, allocated := 1 },
          { size := 674, allocated := 0 }] ∧
      demo_stale.pool.num_allocs = 1 ∧ demo_stale.pool.alloc_size = 200 ∧
      demo_stale.pool.num_gaps = 2 ∧
      live_gaps demo_stale = [{ size := 150, node := some 0 }, { size := 674, node := some 3 }] ∧
      ∀ rg, (mem_del_alloc demo_stale 1 rg).2 = alloc_status.ALLOC_OK ∧
        (mem_del_alloc demo_stale 1 rg).1.pool.num_allocs = 0 ∧
        (mem_del_alloc demo_stale 1 rg).1.pool.alloc_size = 150 ∧
        (mem_del_alloc demo_stale 1 rg).1.pool.num_gaps = 3 ∧
        live_gaps (mem_del_alloc demo_stale 1 rg).1 =
          [{ size := 50, node := some 1 }, { size := 150, node := some 0 },
            { size := 674, node := some 3 }] ∧
        mem_inspect_pool (mem_del_alloc demo_stale 1 rg).1 =
          [{ size := 150, allocated := 0 }, { size := 200, allocated := 1 },
            { size := 674, allocated := 0 }] := by
  refine ⟨demo_stale_reachable, by decide, by decide, by decide, by decide, by decide, by decide,
    by decide, ?_⟩
  intro rg
  rw [mem_del_alloc_low demo_stale 1 rg (by decide)]
  exact ⟨by decide, by decide, by decide, by decide, by decide, by decide⟩

/-! ## The pool that `mem_pool_open` returns -/

/-- C13 (open postcondition), divergence: `mem_pool_open(1024, FIRST_FIT)` on
an initialised registry, with a manager block whose words for `num_allocs`
and `alloc_size` held 1 and 16 when `malloc` returned it.  The pool has the
snapshot `[(1024, 0)]`, total size 1024, one gap with the entry
`(1024, slot 0)` and capacities 40, but its allocation count is 1 and its
allocated bytes are 16, not 0: the function never assigns the two fields. -/
theorem open_counters_unassigned :
    (mem_pool_open demo_registry stale_block 1024 alloc_policy.FIRST_FIT).2 = some stale_pool ∧
      mem_inspect_pool stale_pool = [{ size := 1024, allocated := 0 }] ∧
      stale_pool.pool.total_size = 1024 ∧ stale_pool.pool.num_gaps = 1 ∧
      live_gaps stale_pool = [{ size := 1024, node := some 0 }] ∧
      stale_pool.total_nodes = 40 ∧ stale_pool.gap_ix_capacity = 40 ∧
      stale_pool.pool.num_allocs = 1 ∧ stale_pool.pool.alloc_size = 16 := by
  refine ⟨rfl, ?_, ?_, ?_, ?_, ?_, ?_, ?_, ?_⟩
  · decide
  · decide
  · decide
  · decide
  · decide
  · decide
  · decide
  · decide

/-! ## First fit follows the slab order -/

/-- C19 (first fit is by slab order, not by address): the first-fit pool
`demo_slab_order` is reachable and has the regions, in address order, in the
slots 0, 2, 3, 1; its gaps are slot 2 (100 bytes at address 4296) and slot 1
(624 bytes at address 4496).  `mem_new_alloc` with size 50 allocates from slot
1, the gap at the higher address, although the gap in slot 2 at the lower
address is long enough.  No `realloc` is called, so the answers `rs` and `rg`
play no part. -/
theorem first_fit_slab_order :
    Reachable demo_block 1024 alloc_policy.FIRST_FIT demo_slab_order [3, 0] ∧
      demo_slab_order.pool.policy = alloc_policy.FIRST_FIT ∧
      region_slots demo_slab_order = [0, 2, 3, 1] ∧
      mem_inspect_pool demo_slab_order =
        [{ size := 200, allocated := 1 }, { size := 100, allocated := 0 },
          { size := 100, allocated := 1 }, { size := 624, allocated := 0 }] ∧
      gap_slots demo_slab_order = [1, 2] ∧
      (node_at demo_slab_order.node_heap 2).alloc_record = { size := 100, mem := 4296 } ∧
      (node_at demo_slab_order.node_heap 1).alloc_record = { size := 624, mem := 4496 } ∧
      ∀ rs rg, (mem_new_alloc demo_slab_order 50 rs rg).2 = some 1 ∧
        (node_at (mem_new_alloc demo_slab_order 50 rs rg).1.node_heap 1).alloc_record =
          { size := 50, mem := 4496 } ∧
        (node_at (mem_new_alloc demo_slab_order 50 rs rg).1.node_heap 1).allocated = 1 ∧
        mem_inspect_pool (mem_new_alloc demo_slab_order 50 rs rg).1 =
          [{ size := 200, allocated := 1 }, { size := 100, allocated := 0 },
            { size := 100, allocated := 1 }, { size := 50, allocated := 1 },
            { size := 574, allocated := 0 }] := by
  refine ⟨demo_slab_order_reachable, by decide, by decide, by decide, by decide, by decide,
    by decide, ?_⟩
  intro rs rg
  rw [mem_new_alloc_low demo_slab_order 50 rs rg (by decide) (by decide)]
  exact ⟨by decide, by decide, by decide, by decide⟩

/-! ## The summary counters -/

/-- C20 (summary counters match the layout), divergence: `open(1024,
FIRST_FIT)` in the manager block `stale_block`, whose words for `num_allocs`
and `alloc_size` held 1 and 16, then `allocate(100)`.  The pool has one
occupied region, of 100 bytes, yet `num_allocs` is 2 and `alloc_size` is
116, and `alloc_size` plus the length of the gap is 1040, not the total size
1024. -/
theorem counters_exceed_layout :
    Reachable stale_block 1024 alloc_policy.FIRST_FIT stale_alloc1 [0] ∧
      mem_inspect_pool stale_alloc1 =
        [{ size := 100, allocated := 1 }, { size := 924, allocated := 0 }] ∧
      ((active_slots stale_alloc1).filter
        (fun i => decide ((node_at stale_alloc1.node_heap i).allocated = 1))).length = 1 ∧
      stale_alloc1.pool.num_allocs = 2 ∧ stale_alloc1.pool.alloc_size = 116 ∧
      stale_alloc1.pool.total_size = 1024 ∧
      stale_alloc1.pool.alloc_size + sizes stale_alloc1.node_heap (gap_slots stale_alloc1) =
        1040 := by
  have h1 := Reachable.alloc _ _ 100 none none stale_pool_reachable (by decide)
  have e : handles_after_alloc stale_pool [] 100 none none = [0] := by decide
  rw [e] at h1
  refine ⟨h1, ?_, ?_, ?_, ?_, ?_, ?_⟩
  · decide
  · decide
  · decide
  · decide
  · decide
  · decide

/-! ## The slab after `realloc` has moved it -/

/-- An allocation in a pool whose gap index is not more than three quarters
full does not call the `realloc` of the gap index, whatever happens to the
slab. -/
theorem mem_new_alloc_gap_low (m : pool_mgr_t) (size : Nat) (rs : Option slab_block)
    (rg : Option (Nat → gap_t)) (hg : 4 * m.pool.num_gaps ≤ 3 * m.gap_ix_capacity) :
    mem_new_alloc m size rs rg = mem_new_alloc m size rs none := by
  unfold mem_new_alloc
  by_cases h0 : m.pool.num_gaps = 0
  · simp only [h0, if_true]
  · simp only [h0, if_false]
    have hk : (_mem_resize_node_heap m rs).1.pool = m.pool ∧
        (_mem_resize_node_heap m rs).1.gap_ix_capacity = m.gap_ix_capacity := by
      unfold _mem_resize_node_heap
      by_cases hgrow : 3 * m.total_nodes < 4 * m.used_nodes
      · simp only [hgrow, if_true]
        cases rs with
        | none => exact ⟨rfl, rfl⟩
        | some a =>
          cases hm : a.moved with
          | none => simp [hm]
          | some d => simp [hm]
      · simp [hgrow]
    rcases hres : _mem_resize_node_heap m rs with ⟨k, st⟩
    rw [hres] at hk
    have hk1 : k.pool = m.pool := hk.1
    have hk2 : k.gap_ix_capacity = m.gap_ix_capacity := hk.2
    cases st
    · dsimp only
      by_cases h1 : k.total_nodes < k.used_nodes
      · simp only [h1, if_true]
      · simp only [h1, if_false]
        cases select_node k size with
        | none => rfl
        | some node =>
          exact alloc_in_node_low k node size rg (by rw [hk1, hk2]; exact hg)
    · rfl
    · rfl
    · rfl

/-- C3 (gap index invariant), divergence: `open(1024, FIRST_FIT)`, thirty
allocations of 10 bytes, and a thirty-first for which the slab grows and
`realloc` moves it (`pool_moved`).  Slot 30 of the slab of 80 slots holds the
only active unoccupied region (724 bytes) and `num_gaps` is 1, but the one
live entry of the gap index references the address 110 slots from the start
of the slab, where the gap was in the freed block: no entry references the
gap, and the entry references no region. -/
theorem gap_without_entry :
    Reachable demo_block 1024 alloc_policy.FIRST_FIT pool_moved.1 pool_moved.2 ∧
      gap_slots pool_moved.1 = [30] ∧
      segment pool_moved.1.node_heap 30 = { size := 724, allocated := 0 } ∧
      pool_moved.1.pool.num_gaps = 1 ∧
      live_gaps pool_moved.1 = [{ size := 724, node := some 110 }] ∧
      pool_moved.1.total_nodes = 80 ∧
      ((live_gaps pool_moved.1).filter (fun e => decide (e.node = some 30))).length = 0 := by
  refine ⟨pool_moved_reachable, ?_, ?_, ?_, ?_, ?_, ?_⟩
  · decide
  · decide
  · decide
  · decide
  · decide
  · decide

/-- C4 (allocate postcondition), divergence: `open(1024, FIRST_FIT)` and thirty
allocations of 10 bytes; for the thirty-first the slab grows and `realloc`
moves it.  In the grown slab the first-fit scan selects slot 30, a gap of 724
bytes, yet `mem_new_alloc` returns `NULL`: the gap index still holds the old
address of the gap, `_mem_remove_from_gap_ix` does not find the node, and the
function returns after it has raised `num_allocs` from 30 to 31 and
`alloc_size` from 300 to 310.  Slot 30 is still a gap of 724 bytes. -/
theorem selected_node_not_returned :
    Reachable demo_block 1024 alloc_policy.FIRST_FIT (pool30 alloc_policy.FIRST_FIT).1
        (pool30 alloc_policy.FIRST_FIT).2 ∧
      (pool30 alloc_policy.FIRST_FIT).1.pool.num_allocs = 30 ∧
      (pool30 alloc_policy.FIRST_FIT).1.pool.alloc_size = 300 ∧
      (_mem_resize_node_heap (pool30 alloc_policy.FIRST_FIT).1 (some moved_slab)).2 =
        alloc_status.ALLOC_OK ∧
      select_node (_mem_resize_node_heap (pool30 alloc_policy.FIRST_FIT).1 (some moved_slab)).1
        10 = some 30 ∧
      segment (_mem_resize_node_heap (pool30 alloc_policy.FIRST_FIT).1
        (some moved_slab)).1.node_heap 30 = { size := 724, allocated := 0 } ∧
      ∀ rg,
        (mem_new_alloc (pool30 alloc_policy.FIRST_FIT).1 10 (some moved_slab) rg).2 = none ∧
        (mem_new_alloc (pool30 alloc_policy.FIRST_FIT).1 10 (some moved_slab) rg).1.pool.num_allocs
          = 31 ∧
        (mem_new_alloc (pool30 alloc_policy.FIRST_FIT).1 10 (some moved_slab) rg).1.pool.alloc_size
          = 310 ∧
        segment (mem_new_alloc (pool30 alloc_policy.FIRST_FIT).1 10 (some moved_slab)
          rg).1.node_heap 30 = { size := 724, allocated := 0 } := by
  refine ⟨pool30_reachable _, by decide, by decide, by decide, by decide, by decide, ?_⟩
  intro rg
  rw [mem_new_alloc_gap_low _ 10 _ rg (by decide)]
  exact ⟨by decide, by decide, by decide, by decide⟩

/-- C5 (deallocate postcondition), divergence: `open(1024, FIRST_FIT)`, thirty
allocations of 10 bytes, and a thirty-first for which the slab grows and
`realloc` moves it (`pool_moved`).  The caller holds the thirty handles that
the first thirty calls returned.  All of them are addresses in the freed
block, none is the address of a slab slot, and `mem_del_alloc` answers
`ALLOC_FAIL` for each of them and changes nothing, although the thirty
allocations are in the slab, in the slots 0 to 29. -/
theorem outstanding_handle_rejected :
    Reachable demo_block 1024 alloc_policy.FIRST_FIT pool_moved.1 pool_moved.2 ∧
      pool_moved.2 = ((List.range 30).map (fun i => i + 80)).reverse ∧
      pool_moved.1.total_nodes = 80 ∧
      (List.range 30).map (segment pool_moved.1.node_heap) =
        List.replicate 30 { size := 10, allocated := 1 } ∧
      ∀ h ∈ pool_moved.2, ∀ rg,
        mem_del_alloc pool_moved.1 h rg = (pool_moved.1, alloc_status.ALLOC_FAIL) := by
  have hall : ∀ h ∈ pool_moved.2, pool_moved.1.total_nodes ≤ h := by decide
  refine ⟨pool_moved_reachable, by decide, by decide, by decide, ?_⟩
  intro h hh rg
  exact del_alloc_outside_slab _ h rg (hall h hh)

/-- C6 (round trip), divergence: the pool `open(1024, FIRST_FIT)` after thirty
allocations of 10 bytes has exactly one gap, of 724 bytes.  `mem_new_alloc`
with size 10, when `realloc` moves the slab, returns `NULL`, so there is no
handle to release, and it leaves the allocation count at 31 instead of 30 and
the allocated bytes at 310 instead of 300. -/
theorem round_trip_broken :
    Reachable demo_block 1024 alloc_policy.FIRST_FIT (pool30 alloc_policy.FIRST_FIT).1
        (pool30 alloc_policy.FIRST_FIT).2 ∧
      (pool30 alloc_policy.FIRST_FIT).1.pool.num_gaps = 1 ∧
      mem_inspect_pool (pool30 alloc_policy.FIRST_FIT).1 =
        List.replicate 30 { size := 10, allocated := 1 } ++ [{ size := 724, allocated := 0 }] ∧
      (pool30 alloc_policy.FIRST_FIT).1.pool.num_allocs = 30 ∧
      (pool30 alloc_policy.FIRST_FIT).1.pool.alloc_size = 300 ∧
      ∀ rg,
        (mem_new_alloc (pool30 alloc_policy.FIRST_FIT).1 10 (some moved_slab) rg).2 = none ∧
        (mem_new_alloc (pool30 alloc_policy.FIRST_FIT).1 10 (some moved_slab) rg).1.pool ≠
          (pool30 alloc_policy.FIRST_FIT).1.pool := by
  refine ⟨pool30_reachable _, by decide, by decide, by decide, by decide, ?_⟩
  intro rg
  rw [mem_new_alloc_gap_low _ 10 _ rg (by decide)]
  exact ⟨by decide, by decide⟩

/-- C12 (failed allocation is atomic), divergence: in the pool
`open(1024, FIRST_FIT)` after thirty allocations of 10 bytes, a call of
`mem_new_alloc` for which `realloc` moves the slab returns `NULL` and is not
without effect.  With size 10 it has raised `num_allocs` from 30 to 31 and
`alloc_size` from 300 to 310.  With size 2000, which fits no gap, the counters
are as before, but the slab has been grown and moved before the search for a
gap, and every handle the caller holds is rejected by `mem_del_alloc`
afterwards. -/
theorem failed_alloc_not_atomic :
    Reachable demo_block 1024 alloc_policy.FIRST_FIT (pool30 alloc_policy.FIRST_FIT).1
        (pool30 alloc_policy.FIRST_FIT).2 ∧
      (pool30 alloc_policy.FIRST_FIT).1.pool.num_allocs = 30 ∧
      (pool30 alloc_policy.FIRST_FIT).1.pool.alloc_size = 300 ∧
      (pool30 alloc_policy.FIRST_FIT).1.total_nodes = 40 ∧
      (∀ h ∈ (pool30 alloc_policy.FIRST_FIT).2,
        h < (pool30 alloc_policy.FIRST_FIT).1.total_nodes) ∧
      ∀ rg,
        (mem_new_alloc (pool30 alloc_policy.FIRST_FIT).1 10 (some moved_slab) rg).2 = none ∧
        (mem_new_alloc (pool30 alloc_policy.FIRST_FIT).1 10 (some moved_slab) rg).1.pool.num_allocs
          = 31 ∧
        (mem_new_alloc (pool30 alloc_policy.FIRST_FIT).1 10 (some moved_slab) rg).1.pool.alloc_size
          = 310 ∧
        (mem_new_alloc (pool30 alloc_policy.FIRST_FIT).1 2000 (some moved_slab) rg).2 = none ∧
        (mem_new_alloc (pool30 alloc_policy.FIRST_FIT).1 2000 (some moved_slab) rg).1.pool =
          (pool30 alloc_policy.FIRST_FIT).1.pool ∧
        (mem_new_alloc (pool30 alloc_policy.FIRST_FIT).1 2000 (some moved_slab) rg).1.total_nodes
          = 80 ∧
        ∀ h ∈ handles_after_alloc (pool30 alloc_policy.FIRST_FIT).1
            (pool30 alloc_policy.FIRST_FIT).2 2000 (some moved_slab) rg,
          ∀ rg2, (mem_del_alloc
            (mem_new_alloc (pool30 alloc_policy.FIRST_FIT).1 2000 (some moved_slab) rg).1 h rg2).2 =
            alloc_status.ALLOC_FAIL := by
  refine ⟨pool30_reachable _, by decide, by decide, by decide, by decide, ?_⟩
  intro rg
  have e : handles_after_alloc (pool30 alloc_policy.FIRST_FIT).1
      (pool30 alloc_policy.FIRST_FIT).2 2000 (some moved_slab) rg =
      handles_after_alloc (pool30 alloc_policy.FIRST_FIT).1
      (pool30 alloc_policy.FIRST_FIT).2 2000 (some moved_slab) none := by
    unfold handles_after_alloc
    rw [mem_new_alloc_gap_low _ 2000 _ rg (by decide)]
  rw [e, mem_new_alloc_gap_low _ 10 _ rg (by decide), mem_new_alloc_gap_low _ 2000 _ rg (by decide)]
  refine ⟨by decide, by decide, by decide, by decide, by decide, by decide, ?_⟩
  have hall : ∀ h ∈ handles_after_alloc (pool30 alloc_policy.FIRST_FIT).1
      (pool30 alloc_policy.FIRST_FIT).2 2000 (some moved_slab) none,
      (mem_new_alloc (pool30 alloc_policy.FIRST_FIT).1 2000 (some moved_slab) none).1.total_nodes
        ≤ h := by decide
  intro h hh rg2
  rw [del_alloc_outside_slab _ h rg2 (hall h hh)]

/-! ## The slab after `realloc` has grown it with uninitialised slots -/

/-- C1 (coverage invariant), divergence: `open(1024, FIRST_FIT)` and forty
allocations of 10 bytes, where the `realloc` of the thirty-first call extends
the slab where it is and leaves `used = 1` in the new slots.  The fortieth
call takes the gap of 634 bytes in slot 39, cuts it to 10 bytes, finds no
slot with `used = 0` for the remainder and returns.  All 80 slots read
`used = 1`, their lengths sum to 400, and the snapshot is forty regions of 10
bytes: 624 bytes of the arena of 1024 belong to no region. -/
theorem coverage_lost :
    Reachable demo_block 1024 alloc_policy.FIRST_FIT (pool40 alloc_policy.FIRST_FIT).1
        (pool40 alloc_policy.FIRST_FIT).2 ∧
      (pool40 alloc_policy.FIRST_FIT).1.pool.total_size = 1024 ∧
      active_slots (pool40 alloc_policy.FIRST_FIT).1 = List.range 80 ∧
      active_bytes (pool40 alloc_policy.FIRST_FIT).1 = 400 ∧
      mem_inspect_pool (pool40 alloc_policy.FIRST_FIT).1 =
        List.replicate 40 { size := 10, allocated := 1 } ∧
      ((mem_inspect_pool (pool40 alloc_policy.FIRST_FIT).1).map (fun s => s.size)).sum = 400 := by
  refine ⟨pool40_reachable _, ?_⟩
  decide

/-- C7 (best-fit selection), divergence: `open(1024, BEST_FIT)` and 39
allocations of 10 bytes, where the `realloc` of the thirty-first call extends
the slab where it is and leaves `used = 1` in the new slots.  The pool has a
gap of 634 bytes, in slot 39, and the gap index holds it; yet `mem_new_alloc`
with size 10 returns `NULL`, after it has taken the gap out of the index and
made slot 39 an allocation of 10 bytes.
When instead the `realloc` of the thirty-first call moves the slab, the node
that the best-fit scan of that call takes from the gap index is the old
address of the gap, 110 slots from the start of a slab of 80 slots: the call
goes on to write through a pointer into the freed block. -/
theorem best_fit_returns_null :
    Reachable demo_block 1024 alloc_policy.BEST_FIT (pool39 alloc_policy.BEST_FIT).1
        (pool39 alloc_policy.BEST_FIT).2 ∧
      (pool39 alloc_policy.BEST_FIT).1.pool.policy = alloc_policy.BEST_FIT ∧
      live_gaps (pool39 alloc_policy.BEST_FIT).1 = [{ size := 634, node := some 39 }] ∧
      segment (pool39 alloc_policy.BEST_FIT).1.node_heap 39 = { size := 634, allocated := 0 } ∧
      (node_at (pool39 alloc_policy.BEST_FIT).1.node_heap 39).used = 1 ∧
      (∀ rs rg,
        (mem_new_alloc (pool39 alloc_policy.BEST_FIT).1 10 rs rg).2 = none ∧
        (mem_new_alloc (pool39 alloc_policy.BEST_FIT).1 10 rs rg).1.pool.num_gaps = 0 ∧
        segment (mem_new_alloc (pool39 alloc_policy.BEST_FIT).1 10 rs rg).1.node_heap 39 =
          { size := 10, allocated := 1 }) ∧
      Reachable demo_block 1024 alloc_policy.BEST_FIT (pool30 alloc_policy.BEST_FIT).1
        (pool30 alloc_policy.BEST_FIT).2 ∧
      (_mem_resize_node_heap (pool30 alloc_policy.BEST_FIT).1 (some moved_slab)).1.total_nodes
        = 80 ∧
      select_node (_mem_resize_node_heap (pool30 alloc_policy.BEST_FIT).1 (some moved_slab)).1 10
        = some 110 := by
  refine ⟨pool39_reachable _, by decide, by decide, by decide, by decide, ?_, pool30_reachable _,
    by decide, by decide⟩
  intro rs rg
  rw [mem_new_alloc_low _ 10 rs rg (by decide) (by decide)]
  exact ⟨by decide, by decide, by decide⟩

/-- C8 (first-fit selection), divergence: `open(1024, FIRST_FIT)` and 39
allocations of 10 bytes, where the `realloc` of the thirty-first call extends
the slab where it is and leaves `used = 1` in the new slots.  Slot 39 holds an
active unoccupied region of 634 bytes, and no slot before it holds one, yet
`mem_new_alloc` with size 10 returns `NULL`.
When instead the `realloc` of the thirty-first call moves the slab, that call
returns `NULL` already, although slot 30 of the grown slab holds an active
unoccupied region of 724 bytes. -/
theorem first_fit_returns_null :
    Reachable demo_block 1024 alloc_policy.FIRST_FIT (pool39 alloc_policy.FIRST_FIT).1
        (pool39 alloc_policy.FIRST_FIT).2 ∧
      (pool39 alloc_policy.FIRST_FIT).1.pool.policy = alloc_policy.FIRST_FIT ∧
      39 ∈ gap_slots (pool39 alloc_policy.FIRST_FIT).1 ∧
      (∀ i ∈ gap_slots (pool39 alloc_policy.FIRST_FIT).1, 39 ≤ i) ∧
      (node_at (pool39 alloc_policy.FIRST_FIT).1.node_heap 39).alloc_record.size = 634 ∧
      (∀ rs rg, (mem_new_alloc (pool39 alloc_policy.FIRST_FIT).1 10 rs rg).2 = none) ∧
      Reachable demo_block 1024 alloc_policy.FIRST_FIT (pool30 alloc_policy.FIRST_FIT).1
        (pool30 alloc_policy.FIRST_FIT).2 ∧
      gap_slots (_mem_resize_node_heap (pool30 alloc_policy.FIRST_FIT).1 (some moved_slab)).1
        = [30] ∧
      (node_at (_mem_resize_node_heap (pool30 alloc_policy.FIRST_FIT).1
        (some moved_slab)).1.node_heap 30).alloc_record.size = 724 ∧
      ∀ rg, (mem_new_alloc (pool30 alloc_policy.FIRST_FIT).1 10 (some moved_slab) rg).2 = none := by
  refine ⟨pool39_reachable _, by decide, by decide, by decide, by decide, ?_, pool30_reachable _,
    by decide, by decide, ?_⟩
  · intro rs rg
    rw [mem_new_alloc_low _ 10 rs rg (by decide) (by decide)]
    decide
  · intro rg
    rw [mem_new_alloc_gap_low _ 10 _ rg (by decide)]
    decide

/-- C14 (snapshot follows the physical layout), divergence: `open(1024,
BEST_FIT)` and forty allocations of 10 bytes, where the `realloc` of the
thirty-first call extends the slab where it is and leaves `used = 1` in the
new slots.  `mem_inspect_pool` returns `used_nodes = 40` pairs, while 80 slab
slots read `used = 1`; the walk visits the slots 0 to 39, and the last region
ends 400 bytes after the arena base, not 1024: the regions do not tile the
arena.
When instead the `realloc` of the thirty-first call moves the slab
(`pool_moved`), `used_nodes` is 31 and the walk has 31 nodes to read, but the
`next` link of slot 0, the second node of the walk, is an address outside the
slab of 80 slots: the function reads the freed block. -/
theorem snapshot_misses_layout :
    Reachable demo_block 1024 alloc_policy.BEST_FIT (pool40 alloc_policy.BEST_FIT).1
        (pool40 alloc_policy.BEST_FIT).2 ∧
      (pool40 alloc_policy.BEST_FIT).1.used_nodes = 40 ∧
      (mem_inspect_pool (pool40 alloc_policy.BEST_FIT).1).length = 40 ∧
      (active_slots (pool40 alloc_policy.BEST_FIT).1).length = 80 ∧
      region_slots (pool40 alloc_policy.BEST_FIT).1 = List.range 40 ∧
      (pool40 alloc_policy.BEST_FIT).1.pool.mem = 4096 ∧
      (pool40 alloc_policy.BEST_FIT).1.pool.total_size = 1024 ∧
      (node_at (pool40 alloc_policy.BEST_FIT).1.node_heap 39).alloc_record =
        { size := 10, mem := 4486 } ∧
      (node_at (pool40 alloc_policy.BEST_FIT).1.node_heap 39).next = none ∧
      Reachable demo_block 1024 alloc_policy.FIRST_FIT pool_moved.1 pool_moved.2 ∧
      pool_moved.1.used_nodes = 31 ∧ pool_moved.1.total_nodes = 80 ∧
      (node_at pool_moved.1.node_heap 0).next = some 81 := by
  refine ⟨pool40_reachable _, ?_, ?_, ?_, ?_, ?_, ?_, ?_, ?_, pool_moved_reachable, ?_⟩
  · decide
  · decide
  · decide
  · decide
  · decide
  · decide
  · decide
  · decide
  · decide

/-- C18 (a free slab slot always exists when a split needs one), divergence:
`open(1024, FIRST_FIT)` and 39 allocations of 10 bytes, where the `realloc` of
the thirty-first call extends the slab where it is and leaves `used = 1` in
the new slots.  `used_nodes` is 40 and `total_nodes` is 80, but 80 slots read
`used = 1`; the growth check of the next call changes nothing, the search
for a slot with `used = 0` comes back empty, and `mem_new_alloc` with size 10,
which selects slot 39, returns `NULL` through the branch after the search. -/
theorem unused_search_fails :
    Reachable demo_block 1024 alloc_policy.FIRST_FIT (pool39 alloc_policy.FIRST_FIT).1
        (pool39 alloc_policy.FIRST_FIT).2 ∧
      (pool39 alloc_policy.FIRST_FIT).1.used_nodes = 40 ∧
      (pool39 alloc_policy.FIRST_FIT).1.total_nodes = 80 ∧
      (active_slots (pool39 alloc_policy.FIRST_FIT).1).length = 80 ∧
      (∀ rs, _mem_resize_node_heap (pool39 alloc_policy.FIRST_FIT).1 rs =
        ((pool39 alloc_policy.FIRST_FIT).1, alloc_status.ALLOC_OK)) ∧
      find_unused (pool39 alloc_policy.FIRST_FIT).1 = none ∧
      select_node (pool39 alloc_policy.FIRST_FIT).1 10 = some 39 ∧
      ∀ rs rg,
        (mem_new_alloc (pool39 alloc_policy.FIRST_FIT).1 10 rs rg).2 = none ∧
        find_unused (mem_new_alloc (pool39 alloc_policy.FIRST_FIT).1 10 rs rg).1 = none ∧
        (node_at (mem_new_alloc (pool39 alloc_policy.FIRST_FIT).1 10 rs rg).1.node_heap
          39).allocated = 1 := by
  refine ⟨pool39_reachable _, by decide, by decide, by decide, ?_, by decide, by decide, ?_⟩
  · intro rs
    have hn : ¬ (3 * (pool39 alloc_policy.FIRST_FIT).1.total_nodes <
        4 * (pool39 alloc_policy.FIRST_FIT).1.used_nodes) := by decide
    unfold _mem_resize_node_heap
    simp only [hn, if_false]
  · intro rs rg
    rw [mem_new_alloc_low _ 10 rs rg (by decide) (by decide)]
    exact ⟨by decide, by decide, by decide⟩

/-! ## Closing a pool -/

/-- C9 (close succeeds exactly on a clean pool), divergence in both
directions.  The pool `open(1024, FIRST_FIT)` built in a manager block whose
`num_allocs` word held 1 is one gap with no allocation outstanding, and
`mem_pool_close` answers `ALLOC_NOT_FREED`.  The pool built in a manager block
whose `num_allocs` word held `2^32 - 1` has, after `allocate(100)`, one gap
and one outstanding allocation, and `mem_pool_close` answers `ALLOC_OK` and
releases it: the function tests the two counters, of which `num_allocs` is
never initialised. -/
theorem close_ignores_layout :
    Reachable stale_block 1024 alloc_policy.FIRST_FIT stale_pool [] ∧
      mem_inspect_pool stale_pool = [{ size := 1024, allocated := 0 }] ∧
      mem_pool_close (scenario_registry stale_block) (some (1, stale_pool)) =
        (alloc_status.ALLOC_NOT_FREED, scenario_registry stale_block, some stale_pool) ∧
      Reachable wrap_block 1024 alloc_policy.FIRST_FIT wrap_alloc1 [0] ∧
      mem_inspect_pool wrap_alloc1 =
        [{ size := 100, allocated := 1 }, { size := 924, allocated := 0 }] ∧
      wrap_alloc1.pool.num_allocs = 0 ∧
      (mem_pool_close (scenario_registry wrap_block) (some (1, wrap_alloc1))).1 =
        alloc_status.ALLOC_OK ∧
      (mem_pool_close (scenario_registry wrap_block) (some (1, wrap_alloc1))).2.2 = none := by
  have h1 := Reachable.alloc _ _ 100 none none wrap_pool_reachable (by decide)
  have e : handles_after_alloc (opened_pool wrap_block) [] 100 none none = [0] := by decide
  rw [e] at h1
  refine ⟨stale_pool_reachable, by decide, ?_, h1, by decide, by decide, by decide, by decide⟩
  unfold mem_pool_close
  have hg : stale_pool.pool.num_gaps = 1 := by decide
  have ha : stale_pool.pool.num_allocs = 1 := by decide
  simp [hg, ha]

/-! ## The registry -/

/-- Counterexample of C15: on the registry of a program that has not called
`mem_init` yet, `mem_init` answers `ALLOC_FAIL` when its `calloc` returns
`NULL`; the registry stays without storage, with the capacity 20. -/
theorem mem_init_calloc_fails :
    registry_init.pool_store = none ∧
      mem_init registry_init true =
        ({ pool_store := none, pool_store_size := 0, pool_store_capacity := 20 },
          alloc_status.ALLOC_FAIL) := by
  exact ⟨rfl, rfl⟩

/-- C15 (registry lifecycle), amended: on an uninitialised registry `mem_init`
answers `ALLOC_OK` and leaves the registry initialised when its `calloc`
succeeds, and answers `ALLOC_FAIL`, leaving it uninitialised, when its `calloc`
returns `NULL`; on an initialised registry it answers `ALLOC_CALLED_AGAIN` and
changes nothing.  `mem_free` answers `ALLOC_OK` on an initialised registry and
resets it to no storage, size 0 and capacity 0, and answers
`ALLOC_CALLED_AGAIN`, changing nothing, on an uninitialised one, also right
after a successful `mem_free`.  After a successful `mem_free`, `mem_init`
answers `ALLOC_OK` again when its `calloc` succeeds. -/
theorem registry_lifecycle (g : registry_t) :
    (g.pool_store = none →
      (mem_init g false).2 = alloc_status.ALLOC_OK ∧ (mem_init g false).1.pool_store ≠ none ∧
      (mem_init g false).1.pool_store_capacity = MEM_POOL_STORE_INIT_CAPACITY ∧
      (∀ c, mem_init (mem_init g false).1 c =
        ((mem_init g false).1, alloc_status.ALLOC_CALLED_AGAIN)) ∧
      mem_init g true =
        ({ g with pool_store_capacity := MEM_POOL_STORE_INIT_CAPACITY },
          alloc_status.ALLOC_FAIL) ∧
      (mem_init g true).1.pool_store = none ∧
      mem_free g = (g, alloc_status.ALLOC_CALLED_AGAIN)) ∧
    (g.pool_store ≠ none →
      (∀ c, mem_init g c = (g, alloc_status.ALLOC_CALLED_AGAIN)) ∧
      (mem_free g).2 = alloc_status.ALLOC_OK ∧
      (mem_free g).1 = { pool_store := none, pool_store_size := 0, pool_store_capacity := 0 } ∧
      mem_free (mem_free g).1 = ((mem_free g).1, alloc_status.ALLOC_CALLED_AGAIN) ∧
      (mem_init (mem_free g).1 false).2 = alloc_status.ALLOC_OK ∧
      (mem_init (mem_free g).1 false).1.pool_store ≠ none ∧
      (mem_init (mem_free g).1 true).2 = alloc_status.ALLOC_FAIL) := by
  constructor
  · intro h
    unfold mem_init mem_free
    simp [h]
  · intro h
    cases hs : g.pool_store with
    | none => exact absurd hs h
    | some st =>
      unfold mem_init mem_free
      simp [hs]

/-- Witness of C15: the registry of a program that has not called `mem_init`
yet, and the registry after a successful call. -/
theorem registry_lifecycle_witness :
    registry_init.pool_store = none ∧
      (mem_init registry_init false).2 = alloc_status.ALLOC_OK ∧
      demo_registry.pool_store ≠ none ∧
      (∀ c, mem_init demo_registry c = (demo_registry, alloc_status.ALLOC_CALLED_AGAIN)) ∧
      (mem_free demo_registry).1 = registry_init :=
  ⟨rfl, ((registry_lifecycle registry_init).1 rfl).1, by decide,
    ((registry_lifecycle demo_registry).2 (by decide)).1,
    ((registry_lifecycle demo_registry).2 (by decide)).2.2.1⟩

/-! ## The room in the gap index -/

end MemPool
